import Mathlib

/-!
# ode-to-joy: explicit finite-difference heat solver (`main.c`)

Shallow embedding of `main.c`.

* `double` values are elements of a field `α` (the claims are about exact
  arithmetic); the library function `sin` is a parameter `sinf : α → α`.
* `int` values are mathematical integers (`Int`): signed overflow is undefined
  in C, and the index arithmetic of the grids is taken without it (it needs
  `len_x` above 46340).  The conversions of `parse_grid_options`, from the
  `int` of `atoi` to `size_t`, are explicit.
* The heap is a family of blocks.  A pointer returned by `malloc` is a block
  number, and `Memory α` gives, for a block and an element offset relative to
  the start of the block, the `double` stored there.  Offsets outside
  `[0, len_x*len_y)` are the memory next to the allocation: the program does
  address them, so the model gives them a content as well.  Blocks are
  disjoint: an access through one pointer never lands in another block, so
  what the lemmas say of elements outside a storage holds of the model only;
  the theorems on the claims evaluate the code and say which offsets are
  inside the storage.
* The storage of a grid is the offsets `0 ≤ k < len_x*len_y` of its block
  (`in_storage`).  The lists `..._writes` and `..._reads` give the offsets the
  loops of a function address, and the `..._checked` functions are the same
  loops with indexing that fails outside the storage.
* `grid_element(g,i,j)` is a preprocessor macro whose parameters are not
  parenthesised in its body `g.internal_storage[(i * g.len_x) + (j - 1)]`.
  Each call site below carries the index expression the preprocessor
  produces there, read with the precedence of C (which is that of Lean for
  `+`, `-`, `*`).
-/

namespace OdeToJoy

/-- The struct `Stepsize` of `main.c`. -/
structure Stepsize (α : Type) where
  x : α
  y : α
  t : α

/-- The struct `Grid` of `main.c`: a pointer to the storage and two `int` sizes. -/
structure Grid where
  internal_storage : Nat
  len_x : Int
  len_y : Int
deriving DecidableEq

/-- The struct `GridOptions` of `main.c`; the fields are `size_t` values. -/
structure GridOptions where
  len_x : Nat
  len_y : Nat
  len_t : Nat
deriving DecidableEq

/-- Contents of the heap: block number, then element offset inside the block. -/
abbrev Memory (α : Type) := Nat → Int → α

/-- Assignment `p[k] = v` through the pointer `p`. -/
def Memory.store {α : Type} (m : Memory α) (p : Nat) (k : Int) (v : α) : Memory α :=
  fun q n => if q = p ∧ n = k then v else m q n

/-- The heap with its allocator: `next` counts the blocks `malloc` has handed out. -/
structure Heap (α : Type) where
  cells : Memory α
  next : Nat

/-- Runs `body i` for `i = lo, lo+1, ..., lo+n-1`, threading the state. -/
def forLoop {σ : Type} : Nat → Int → (Int → σ → σ) → σ → σ
  | 0, _, _, s => s
  | n + 1, i, body, s => forLoop n (i + 1) body (body i s)

/-- The C loop `for (i = lo; i < hi; i++) body`. -/
def cfor {σ : Type} (lo hi : Int) (body : Int → σ → σ) (s : σ) : σ :=
  forLoop (hi - lo).toNat lo body s

/-- Function `alloc_grid` of `main.c`: the storage is a fresh block whose
contents are whatever the heap holds there; `malloc` does not initialise it. -/
def alloc_grid {α : Type} (hp : Heap α) (len_x len_y : Int) : Grid × Heap α :=
  (⟨hp.next, len_x, len_y⟩, ⟨hp.cells, hp.next + 1⟩)

/-- Function `generate_initial_conditions` of `main.c`; the write is
`initial_conditions.internal_storage[(i * initial_conditions.len_x) + (j - 1)]`. -/
def generate_initial_conditions {α : Type} [Field α] (sinf : α → α) (hp : Heap α)
    (len_x len_y : Int) : Grid × Heap α :=
  let a := alloc_grid hp len_x len_y
  let initial_conditions := a.1
  let hx : α := 1 / (len_x : α)
  let cells := cfor 0 len_x (fun i m =>
    cfor 0 len_y (fun j m =>
      m.store initial_conditions.internal_storage
        ((i * initial_conditions.len_x) + (j - 1)) (sinf ((i : α) * hx))) m) a.2.cells
  (initial_conditions, ⟨cells, a.2.next⟩)

/-- The value `uijnP1` that one iteration of `solve_interior` computes; the five
reads carry the index expressions of the expanded macro:
`(i * len_x) + (j - 1)`, `(i+1 * len_x) + (j - 1)`, `(i-1 * len_x) + (j - 1)`,
`(i * len_x) + (j+1 - 1)` and `(i * len_x) + (j-1 - 1)`. -/
def uijnP1 {α : Type} [Field α] (m : Memory α) (previous : Grid) (h : Stepsize α)
    (i j : Int) : α :=
  let uijn := m previous.internal_storage ((i * previous.len_x) + (j - 1))
  let t_contribution := uijn
  let uiP1jn := m previous.internal_storage ((i + 1 * previous.len_x) + (j - 1))
  let uiM1jn := m previous.internal_storage ((i - 1 * previous.len_x) + (j - 1))
  let x_contribution := h.t * (uiP1jn - 2 * uijn + uiM1jn) / (h.x * h.x)
  let uijP1n := m previous.internal_storage ((i * previous.len_x) + (j + 1 - 1))
  let uijM1n := m previous.internal_storage ((i * previous.len_x) + (j - 1 - 1))
  let y_contribution := h.t * (uijP1n - 2 * uijn + uijM1n) / (h.y * h.y)
  t_contribution + x_contribution + y_contribution

/-- Function `solve_interior` of `main.c`; the write is
`current.internal_storage[(i * current.len_x) + (j - 1)]`. -/
def solve_interior {α : Type} [Field α] (m : Memory α) (current previous : Grid)
    (h : Stepsize α) : Memory α :=
  let max_i := current.len_x - 2
  let max_j := current.len_y - 2
  cfor 1 max_i (fun i m =>
    cfor 1 max_j (fun j m =>
      m.store current.internal_storage ((i * current.len_x) + (j - 1))
        (uijnP1 m previous h i j)) m) m

/-- Function `apply_boundary_conditions` of `main.c`; the four writes are, after
expansion,
`g.internal_storage[(i * g.len_x) + (0 - 1)]`,
`g.internal_storage[(i * g.len_x) + (g.len_y - 1 - 1)]`,
`g.internal_storage[(0 * g.len_x) + (j - 1)]` and
`g.internal_storage[(g.len_x - 1 * g.len_x) + (j - 1)]`. -/
def apply_boundary_conditions {α : Type} [Field α] (m : Memory α) (g : Grid) : Memory α :=
  -- North Boundary
  let m := cfor 0 g.len_x (fun i m => m.store g.internal_storage ((i * g.len_x) + (0 - 1)) 0) m
  -- South Boundary
  let m := cfor 0 g.len_x
    (fun i m => m.store g.internal_storage ((i * g.len_x) + (g.len_y - 1 - 1)) 0) m
  -- East Boundary
  let m := cfor 0 g.len_y (fun j m => m.store g.internal_storage ((0 * g.len_x) + (j - 1)) 0) m
  -- West Boundary
  cfor 0 g.len_y
    (fun j m => m.store g.internal_storage ((g.len_x - 1 * g.len_x) + (j - 1)) 0) m

/-- One pass of the body of the time loop of `main`:
`grids_by_timestep[tau] = alloc_grid(..); apply_boundary_conditions(grids_by_timestep[tau]);
solve_interior(grids_by_timestep[tau], grids_by_timestep[tau - 1], h);`.
The state is the heap together with the array `grids_by_timestep`. -/
def time_step {α : Type} [Field α] (len_x len_y : Int) (h : Stepsize α) (tau : Int)
    (s : Heap α × (Int → Grid)) : Heap α × (Int → Grid) :=
  let a := alloc_grid s.1 len_x len_y
  let grids_by_timestep := Function.update s.2 tau a.1
  let cells := apply_boundary_conditions a.2.cells (grids_by_timestep tau)
  let cells := solve_interior cells (grids_by_timestep tau) (grids_by_timestep (tau - 1)) h
  (⟨cells, a.2.next⟩, grids_by_timestep)

/-- The part of `main` between the parsing of the options and `store_grid`:
the initial conditions go to `grids_by_timestep[0]`, then
`for (tau = 1; tau < len_t; tau++)` runs `time_step`.  `junk` is the content of
the array `grids_by_timestep` before any slot is assigned. -/
def solve_problem {α : Type} [Field α] (sinf : α → α) (hp : Heap α) (junk : Int → Grid)
    (len_x len_y len_t : Int) (h : Stepsize α) : Heap α × (Int → Grid) :=
  let ic := generate_initial_conditions sinf hp len_x len_y
  let initial_conditions := ic.1
  let grids_by_timestep := Function.update junk 0 initial_conditions
  cfor 1 len_t (time_step len_x len_y h) (ic.2, grids_by_timestep)

/-- Function `stepsize_from_grid_options` of `main.c`; `(double)` of a `size_t`
is the cast into the field. -/
def stepsize_from_grid_options {α : Type} [Field α] (go : GridOptions) : Stepsize α :=
  ⟨1 / (go.len_x : α), 1 / (go.len_y : α), 1 / (go.len_t : α)⟩

/-! ### Options -/

/-- How a call that may end the process comes back: with a value, or with
`exit(status)`. -/
inductive Outcome (β : Type) where
  | returned (value : β)
  | exited (status : Int)
deriving DecidableEq

/-- Conversion of a `long` to `int` (32 bits, two's complement). -/
def int_of_long (v : Int) : Int := (v + 2 ^ 31) % 2 ^ 32 - 2 ^ 31

/-- Conversion of an `int` to `size_t` (64 bits): reduction modulo `2^64`. -/
def size_t_of_int (v : Int) : Nat := (v % 2 ^ 64).toNat

/-- The C library's `isspace` in the C locale. -/
def isspace (c : Char) : Bool := c.toNat = 32 || (9 ≤ c.toNat && c.toNat ≤ 13)

/-- The C library's `isdigit`. -/
def isdigit (c : Char) : Bool := 48 ≤ c.toNat && c.toNat ≤ 57

/-- The digit loop of `strtol` in base 10: it stops at the first character that
is not a digit. -/
def strtol_digits : List Char → Nat → Nat
  | [], acc => acc
  | c :: cs, acc => if isdigit c then strtol_digits cs (acc * 10 + (c.toNat - 48)) else acc

/-- The C library's `strtol(s, NULL, 10)` with a 64-bit `long`: white space, an
optional sign, digits; a value out of range is clamped to `LONG_MIN` or `LONG_MAX`. -/
def strtol (s : List Char) : Int :=
  match s.dropWhile isspace with
  | [] => 0
  | c :: cs =>
    if c.toNat = 45 then max (-(strtol_digits cs 0 : Int)) (-(2 ^ 63))
    else if c.toNat = 43 then min (strtol_digits cs 0 : Int) (2 ^ 63 - 1)
    else min (strtol_digits (c :: cs) 0 : Int) (2 ^ 63 - 1)

/-- The C library's `atoi`, which is `(int) strtol(s, NULL, 10)`. -/
def atoi (s : String) : Int := int_of_long (strtol s.data)

/-- The `while (i < argc - 1)` loop of `parse_grid_options`; `argv[i]` past the
end of the vector is never read, `getD` only makes the lookup total.  `strcmp`
returning 0 is equality of the strings; the `printf` calls are left out. -/
def parse_loop (argv : List String) (i : Nat) (go : GridOptions) : Outcome GridOptions :=
  if _h : (i : Int) < (argv.length : Int) - 1 then
    if argv.getD i "" = "-x" then
      parse_loop argv (i + 2) { go with len_x := size_t_of_int (atoi (argv.getD (i + 1) "")) }
    else if argv.getD i "" = "-y" then
      parse_loop argv (i + 2) { go with len_y := size_t_of_int (atoi (argv.getD (i + 1) "")) }
    else if argv.getD i "" = "-t" then
      parse_loop argv (i + 2) { go with len_t := size_t_of_int (atoi (argv.getD (i + 1) "")) }
    else
      Outcome.exited 1
  else
    Outcome.returned go
termination_by argv.length - i
decreasing_by all_goals omega

/-- Function `parse_grid_options` of `main.c`; `argc` is the length of `argv`,
and `argv[0]` is the name of the program. -/
def parse_grid_options (argv : List String) : Outcome GridOptions :=
  parse_loop argv 1 ⟨500, 500, 10⟩

/-! ## Two nested loops that store into one block -/

/-- The cells `(i, j)` that the nested loops have gone through when the outer
counter is `I` and the inner one `J`. -/
def Visited (li hi lj hj I J i j : Int) : Prop :=
  li ≤ i ∧ i < hi ∧ lj ≤ j ∧ j < hj ∧ (i < I ∨ (i = I ∧ j < J))

/-- What holds of the memory `r` reached from `m` once the cells `Visited` have
been gone through: other blocks are untouched, offsets no visited cell maps to
are untouched, and an offset holds the value of the visited cell of the
greatest row that maps to it. -/
def StoreInv {α : Type} (m : Memory α) (p : Nat) (off : Int → Int → Int) (v : Int → Int → α)
    (li hi lj hj I J : Int) (r : Memory α) : Prop :=
  (∀ q k, q ≠ p → r q k = m q k) ∧
  (∀ k, (∀ i j, Visited li hi lj hj I J i j → off i j ≠ k) → r p k = m p k) ∧
  (∀ i j, Visited li hi lj hj I J i j →
    (∀ i2 j2, Visited li hi lj hj I J i2 j2 → off i2 j2 = off i j → i2 ≤ i) →
    r p (off i j) = v i j)

/-! ### Command lines made of well-formed pairs -/

/-- The three options of the command line. -/
inductive GridOption where
  | x
  | y
  | t
deriving DecidableEq

/-- The flag that names an option. -/
def GridOption.flag : GridOption → String
  | GridOption.x => "-x"
  | GridOption.y => "-y"
  | GridOption.t => "-t"

/-- The arguments `-o1 v1 -o2 v2 ...` for a list of pairs. -/
def encode_pairs : List (GridOption × String) → List String
  | [] => []
  | p :: ps => p.1.flag :: p.2 :: encode_pairs ps

/-- The argument vector of `prog -o1 v1 -o2 v2 ...`. -/
def argv_of_pairs (prog : String) (ps : List (GridOption × String)) : List String :=
  prog :: encode_pairs ps

/-- A non-negative decimal integer: one digit or more, and nothing else. -/
def is_decimal (s : String) : Bool := !s.data.isEmpty && s.data.all isdigit

/-- The number a string of digits writes in base ten. -/
def decimal_value (s : String) : Nat :=
  s.data.foldl (fun n c => 10 * n + (c.toNat - 48)) 0

/-- The value of the last pair that names the option `o`, or `dflt` when no pair
names it. -/
def last_value (o : GridOption) (ps : List (GridOption × String)) (dflt : Nat) : Nat :=
  match (ps.filter (fun p => p.1 = o)).getLast? with
  | none => dflt
  | some p => decimal_value p.2

/-- The options after the pair `p` has set its field to the number it writes. -/
def GridOptions.assign (go : GridOptions) (p : GridOption × String) : GridOptions :=
  match p.1 with
  | GridOption.x => { go with len_x := decimal_value p.2 }
  | GridOption.y => { go with len_y := decimal_value p.2 }
  | GridOption.t => { go with len_t := decimal_value p.2 }

/-! ### The update as the specification writes it -/

/-- The element `g[r,c]` of the specification: the storage element at offset
`r*len_x + (c-1)`. -/
def spec_element {α : Type} (m : Memory α) (g : Grid) (r c : Int) : α :=
  m g.internal_storage (r * g.len_x + (c - 1))

/-- The stencil update in the words of the specification (§4.3):
`u + h.t*(previous[i+1,j] - 2u + previous[i-1,j])/h.x² +
h.t*(previous[i,j+1] - 2u + previous[i,j-1])/h.y²` with `u = previous[i,j]`. -/
def spec_update {α : Type} [Field α] (m : Memory α) (previous : Grid) (h : Stepsize α)
    (i j : Int) : α :=
  let u := spec_element m previous i j
  u + h.t * (spec_element m previous (i + 1) j - 2 * u + spec_element m previous (i - 1) j)
        / h.x ^ 2
    + h.t * (spec_element m previous i (j + 1) - 2 * u + spec_element m previous i (j - 1))
        / h.y ^ 2

/-! ### The offsets the loops address -/

/-- Whether the offset `k` is inside the storage of `g`: `alloc_grid` asks `malloc`
for `len_x * len_y` doubles. -/
def in_storage (g : Grid) (k : Int) : Bool :=
  decide (0 ≤ k) && decide (k < g.len_x * g.len_y)

/-- The offsets `generate_initial_conditions` assigns, in the order of its loops. -/
def generate_initial_conditions_writes (len_x len_y : Int) : List Int :=
  cfor 0 len_x (fun i l =>
    cfor 0 len_y (fun j l => l ++ [(i * len_x) + (j - 1)]) l) []

/-- The offsets of `g` that `apply_boundary_conditions` assigns, in the order of
its four loops. -/
def apply_boundary_conditions_writes (g : Grid) : List Int :=
  let l := cfor 0 g.len_x (fun i l => l ++ [(i * g.len_x) + (0 - 1)]) []
  let l := cfor 0 g.len_x (fun i l => l ++ [(i * g.len_x) + (g.len_y - 1 - 1)]) l
  let l := cfor 0 g.len_y (fun j l => l ++ [(0 * g.len_x) + (j - 1)]) l
  cfor 0 g.len_y (fun j l => l ++ [(g.len_x - 1 * g.len_x) + (j - 1)]) l

/-- The offsets of `current` that `solve_interior` assigns, in the order of its
loops. -/
def solve_interior_writes (current : Grid) : List Int :=
  cfor 1 (current.len_x - 2) (fun i l =>
    cfor 1 (current.len_y - 2) (fun j l => l ++ [(i * current.len_x) + (j - 1)]) l) []

/-- The five offsets of `previous` that one iteration of `solve_interior` reads. -/
def uijnP1_reads (previous : Grid) (i j : Int) : List Int :=
  [(i * previous.len_x) + (j - 1), (i + 1 * previous.len_x) + (j - 1),
    (i - 1 * previous.len_x) + (j - 1), (i * previous.len_x) + (j + 1 - 1),
    (i * previous.len_x) + (j - 1 - 1)]

/-- The offsets of `previous` that `solve_interior` reads, in the order of its
loops. -/
def solve_interior_reads (current previous : Grid) : List Int :=
  cfor 1 (current.len_x - 2) (fun i l =>
    cfor 1 (current.len_y - 2) (fun j l => l ++ uijnP1_reads previous i j) l) []

/-! ### The transition with checked indexing -/

/-- Runs `body i` for `i = lo, ..., lo+n-1` and stops at the first failure. -/
def forLoopM {σ : Type} : Nat → Int → (Int → σ → Option σ) → σ → Option σ
  | 0, _, _, s => some s
  | n + 1, i, body, s =>
    match body i s with
    | none => none
    | some s2 => forLoopM n (i + 1) body s2

/-- The C loop `for (i = lo; i < hi; i++) body` with a body that can fail. -/
def cforM {σ : Type} (lo hi : Int) (body : Int → σ → Option σ) (s : σ) : Option σ :=
  forLoopM (hi - lo).toNat lo body s

/-- Read of `g.internal_storage[k]`; `none` outside the storage. -/
def load_checked {α : Type} (m : Memory α) (g : Grid) (k : Int) : Option α :=
  if in_storage g k then some (m g.internal_storage k) else none

/-- Assignment `g.internal_storage[k] = v`; `none` outside the storage. -/
def store_checked {α : Type} (m : Memory α) (g : Grid) (k : Int) (v : α) :
    Option (Memory α) :=
  if in_storage g k then some (m.store g.internal_storage k v) else none

/-- Function `apply_boundary_conditions` with checked indexing. -/
def apply_boundary_conditions_checked {α : Type} [Field α] (m : Memory α) (g : Grid) :
    Option (Memory α) := do
  let m ← cforM 0 g.len_x (fun i m => store_checked m g ((i * g.len_x) + (0 - 1)) 0) m
  let m ← cforM 0 g.len_x
    (fun i m => store_checked m g ((i * g.len_x) + (g.len_y - 1 - 1)) 0) m
  let m ← cforM 0 g.len_y (fun j m => store_checked m g ((0 * g.len_x) + (j - 1)) 0) m
  cforM 0 g.len_y (fun j m => store_checked m g ((g.len_x - 1 * g.len_x) + (j - 1)) 0) m

/-- The value of one iteration of `solve_interior` with checked reads. -/
def uijnP1_checked {α : Type} [Field α] (m : Memory α) (previous : Grid) (h : Stepsize α)
    (i j : Int) : Option α := do
  let uijn ← load_checked m previous ((i * previous.len_x) + (j - 1))
  let t_contribution := uijn
  let uiP1jn ← load_checked m previous ((i + 1 * previous.len_x) + (j - 1))
  let uiM1jn ← load_checked m previous ((i - 1 * previous.len_x) + (j - 1))
  let x_contribution := h.t * (uiP1jn - 2 * uijn + uiM1jn) / (h.x * h.x)
  let uijP1n ← load_checked m previous ((i * previous.len_x) + (j + 1 - 1))
  let uijM1n ← load_checked m previous ((i * previous.len_x) + (j - 1 - 1))
  let y_contribution := h.t * (uijP1n - 2 * uijn + uijM1n) / (h.y * h.y)
  pure (t_contribution + x_contribution + y_contribution)

/-- Function `solve_interior` with checked indexing. -/
def solve_interior_checked {α : Type} [Field α] (m : Memory α) (current previous : Grid)
    (h : Stepsize α) : Option (Memory α) :=
  let max_i := current.len_x - 2
  let max_j := current.len_y - 2
  cforM 1 max_i (fun i m =>
    cforM 1 max_j (fun j m => do
      let v ← uijnP1_checked m previous h i j
      store_checked m current ((i * current.len_x) + (j - 1)) v) m) m

/-! ### The program -/

/-- Conversion of a `size_t` to `int`, at the calls that pass `go.len_x` and
`go.len_y` for `int` parameters. -/
def int_of_size_t (n : Nat) : Int := int_of_long n

/-- Function `store_grid` of `main.c`: the `num_cells = len_x * len_y` doubles that
`fwrite` takes from the storage, in order. -/
def store_grid {α : Type} (m : Memory α) (g : Grid) : List α :=
  (List.range (size_t_of_int (g.len_x * g.len_y))).map
    (fun k => m g.internal_storage (k : Int))

/-- The heap and the grid `grids_by_timestep[go.len_t - 1]` that `main` hands to
`store_grid`, for the options `go` that `parse_grid_options` returned.  The
loop test `tau < go.len_t` compares as `size_t`; `tau` is never negative. -/
def main_store_argument {α : Type} [Field α] (sinf : α → α) (hp : Heap α)
    (junk : Int → Grid) (go : GridOptions) : Heap α × Grid :=
  let s := solve_problem sinf hp junk (int_of_size_t go.len_x) (int_of_size_t go.len_y)
    (go.len_t : Int) (stepsize_from_grid_options go)
  (s.1, s.2 ((go.len_t : Int) - 1))

/-- Function `main` of `main.c`: the content of the output file, or the exit
status of `parse_grid_options`.  `MPI_Init` and the timers are left out. -/
def main {α : Type} [Field α] (sinf : α → α) (hp : Heap α) (junk : Int → Grid)
    (argv : List String) : Outcome (List α) :=
  match parse_grid_options argv with
  | Outcome.exited status => Outcome.exited status
  | Outcome.returned go =>
    let a := main_store_argument sinf hp junk go
    Outcome.returned (store_grid a.1.cells a.2)

/-! ### The sequence of grids as the specification writes it -/

/-- The transition of the specification (§4.4): allocate a new grid, apply the
boundary conditions to it, then run the stencil update with the grid of the
step before as `previous`. -/
def spec_transition {α : Type} [Field α] (len_x len_y : Int) (h : Stepsize α)
    (s : Heap α × Grid) : Heap α × Grid :=
  let a := alloc_grid s.1 len_x len_y
  let cells := apply_boundary_conditions a.2.cells a.1
  let cells := solve_interior cells a.1 s.2 h
  (⟨cells, a.2.next⟩, a.1)

/-- The heap and the grid of timestep `tau`: `grid[0]` is the initial-conditions
grid, `grid[tau+1]` comes from `grid[tau]` by one transition. -/
def grid_sequence {α : Type} [Field α] (sinf : α → α) (hp : Heap α) (len_x len_y : Int)
    (h : Stepsize α) : Nat → Heap α × Grid
  | 0 =>
    let ic := generate_initial_conditions sinf hp len_x len_y
    (ic.2, ic.1)
  | tau + 1 => spec_transition len_x len_y h (grid_sequence sinf hp len_x len_y h tau)

/-! ## Counting loops -/

theorem forLoop_inv {σ : Type} (P : Int → σ → Prop) (body : Int → σ → σ) :
    ∀ (n : Nat) (lo : Int) (s : σ), P lo s →
      (∀ i s, lo ≤ i → i < lo + n → P i s → P (i + 1) (body i s)) →
      P (lo + n) (forLoop n lo body s)
  | 0, lo, s, h0, _ => by simpa [forLoop] using h0
  | n + 1, lo, s, h0, hs => by
      have h1 : P (lo + 1) (body lo s) := hs lo s le_rfl (by push_cast; omega) h0
      have h2 := forLoop_inv P body n (lo + 1) (body lo s) h1
        (fun i s hi hi2 hp => hs i s (by omega) (by push_cast; omega) hp)
      have e : lo + ((n + 1 : Nat) : Int) = lo + 1 + n := by push_cast; ring
      rw [e]
      exact h2

/-- Loop invariant rule for `for (i = lo; i < hi; i++)`: the loop stops at `max lo hi`. -/
theorem cfor_inv {σ : Type} (P : Int → σ → Prop) (body : Int → σ → σ) (lo hi : Int) (s : σ)
    (h0 : P lo s) (hs : ∀ i s, lo ≤ i → i < hi → P i s → P (i + 1) (body i s)) :
    P (max lo hi) (cfor lo hi body s) := by
  have h := forLoop_inv P body (hi - lo).toNat lo s h0
    (fun i s hi1 hi2 hp => hs i s hi1 (by omega) hp)
  have e : lo + (((hi - lo).toNat : Nat) : Int) = max lo hi := by omega
  rw [e] at h
  exact h

/-- Invariant rule for an invariant that does not mention the counter. -/
theorem cfor_inv_const {σ : Type} (P : σ → Prop) (body : Int → σ → σ) (lo hi : Int) (s : σ)
    (h0 : P s) (hs : ∀ i s, lo ≤ i → i < hi → P s → P (body i s)) :
    P (cfor lo hi body s) :=
  cfor_inv (fun _ s => P s) body lo hi s h0 hs

theorem cfor_empty {σ : Type} (body : Int → σ → σ) (lo hi : Int) (s : σ) (h : hi ≤ lo) :
    cfor lo hi body s = s := by
  have e : (hi - lo).toNat = 0 := by omega
  simp [cfor, e, forLoop]

@[simp] theorem Memory.store_apply {α : Type} (m : Memory α) (p : Nat) (k : Int) (v : α)
    (q : Nat) (n : Int) :
    m.store p k v q n = if q = p ∧ n = k then v else m q n := rfl

/-! ## Two nested loops that store into one block -/

theorem StoreInv.congr {α : Type} {m : Memory α} {p : Nat} {off : Int → Int → Int}
    {v : Int → Int → α} {li hi lj hj I J I2 J2 : Int} {r : Memory α}
    (h : StoreInv m p off v li hi lj hj I J r)
    (e : ∀ i j, Visited li hi lj hj I2 J2 i j ↔ Visited li hi lj hj I J i j) :
    StoreInv m p off v li hi lj hj I2 J2 r := by
  obtain ⟨hA, hB, hC⟩ := h
  refine ⟨hA, ?_, ?_⟩
  · intro k hk
    exact hB k (fun i j hv => hk i j ((e i j).2 hv))
  · intro i j hv hmax
    exact hC i j ((e i j).1 hv) (fun i2 j2 hv2 he => hmax i2 j2 ((e i2 j2).2 hv2) he)

theorem StoreInv.step {α : Type} {m : Memory α} {p : Nat} {off : Int → Int → Int}
    {v : Int → Int → α} {li hi lj hj I J : Int} {r : Memory α}
    (hoff : ∀ i j j2, off i j = off i j2 → j = j2)
    (h : StoreInv m p off v li hi lj hj I J r)
    (hI : li ≤ I) (hI2 : I < hi) (hJ : lj ≤ J) (hJ2 : J < hj) :
    StoreInv m p off v li hi lj hj I (J + 1) (r.store p (off I J) (v I J)) := by
  obtain ⟨hA, hB, hC⟩ := h
  refine ⟨?_, ?_, ?_⟩
  · intro q k hq
    simp [hq, hA q k hq]
  · intro k hk
    have hne : k ≠ off I J := fun e =>
      hk I J ⟨hI, hI2, hJ, hJ2, Or.inr ⟨rfl, by omega⟩⟩ e.symm
    simp only [Memory.store_apply, hne, and_false, if_false]
    exact hB k (fun i j hv => hk i j
      ⟨hv.1, hv.2.1, hv.2.2.1, hv.2.2.2.1, by rcases hv.2.2.2.2 with h | h <;> omega⟩)
  · intro i j hv hmax
    by_cases e : off i j = off I J
    · have h1 : I ≤ i := hmax I J ⟨hI, hI2, hJ, hJ2, Or.inr ⟨rfl, by omega⟩⟩ e.symm
      have h2 : i = I := by rcases hv.2.2.2.2 with h | h <;> omega
      subst h2
      have h3 : j = J := hoff i j J e
      subst h3
      simp
    · simp only [Memory.store_apply, e, and_false, if_false]
      have hv2 : Visited li hi lj hj I J i j := by
        refine ⟨hv.1, hv.2.1, hv.2.2.1, hv.2.2.2.1, ?_⟩
        rcases hv.2.2.2.2 with h | ⟨h, h2⟩
        · exact Or.inl h
        · refine Or.inr ⟨h, ?_⟩
          have : j ≠ J := fun ej => e (by rw [h, ej])
          omega
      exact hC i j hv2 (fun i2 j2 hv3 he => hmax i2 j2
        ⟨hv3.1, hv3.2.1, hv3.2.2.1, hv3.2.2.2.1, by rcases hv3.2.2.2.2 with h | h <;> omega⟩ he)

/-- Result of two nested counting loops whose body stores `val m i j` at offset
`off i j` of block `p`, when the stored value is the same in every memory that
agrees with the initial one outside block `p`. -/
theorem nested_store_spec {α : Type} (m : Memory α) (p : Nat) (off : Int → Int → Int)
    (val : Memory α → Int → Int → α) (v : Int → Int → α) (li hi lj hj : Int)
    (hoff : ∀ i j j2, off i j = off i j2 → j = j2)
    (hval : ∀ (r : Memory α) i j, (∀ q k, q ≠ p → r q k = m q k) → val r i j = v i j) :
    StoreInv m p off v li hi lj hj hi lj
      (cfor li hi (fun i r => cfor lj hj (fun j r => r.store p (off i j) (val r i j)) r) m) := by
  have hout := cfor_inv (fun I r => StoreInv m p off v li hi lj hj I lj r)
    (fun i r => cfor lj hj (fun j r => r.store p (off i j) (val r i j)) r) li hi m
    ⟨fun _ _ _ => rfl, fun _ _ => rfl, fun i j hv => by
      rcases hv.2.2.2.2 with h | h <;> [exact absurd hv.1 (by omega); exact absurd hv.2.2.1 (by omega)]⟩
    (by
      intro I r hI hI2 hinv
      have hin := cfor_inv (fun J r => StoreInv m p off v li hi lj hj I J r)
        (fun j r => r.store p (off I j) (val r I j)) lj hj r hinv
        (by
          intro J r hJ hJ2 hinv2
          have := StoreInv.step hoff hinv2 hI hI2 hJ hJ2
          show StoreInv m p off v li hi lj hj I (J + 1) (r.store p (off I J) (val r I J))
          rwa [hval r I J hinv2.1])
      exact hin.congr (fun i j => by unfold Visited; omega))
  exact hout.congr (fun i j => by unfold Visited; omega)

/-- The nested store loops leave every element alone that is not the target of
one of their stores, whatever value they store. -/
theorem nested_store_frame {α : Type} (m : Memory α) (p : Nat) (off : Int → Int → Int)
    (val : Memory α → Int → Int → α) (li hi lj hj : Int) (q : Nat) (k : Int)
    (hk : ¬ (q = p ∧ ∃ i j, li ≤ i ∧ i < hi ∧ lj ≤ j ∧ j < hj ∧ k = off i j)) :
    cfor li hi (fun i r => cfor lj hj (fun j r => r.store p (off i j) (val r i j)) r) m q k
      = m q k := by
  refine cfor_inv_const (fun r => r q k = m q k) _ li hi m rfl ?_
  intro i r hi1 hi2 hr
  refine cfor_inv_const (fun r => r q k = m q k) _ lj hj r hr ?_
  intro j r hj1 hj2 hr
  have hne : ¬ (q = p ∧ k = off i j) := fun h => hk ⟨h.1, i, j, hi1, hi2, hj1, hj2, h.2⟩
  simp only [Memory.store_apply, hne, if_false]
  exact hr

/-- Among the cells of a rectangle that map to a given offset there is one of
greatest row. -/
theorem exists_last_writer (off : Int → Int → Int) (li hi lj hj k : Int)
    (h : ∃ i j, li ≤ i ∧ i < hi ∧ lj ≤ j ∧ j < hj ∧ off i j = k) :
    ∃ i j, (li ≤ i ∧ i < hi ∧ lj ≤ j ∧ j < hj ∧ off i j = k) ∧
      ∀ i2 j2, li ≤ i2 → i2 < hi → lj ≤ j2 → j2 < hj → off i2 j2 = k → i2 ≤ i := by
  obtain ⟨i0, j0, h0⟩ := h
  obtain ⟨ub, ⟨j, hub⟩, hmax⟩ := Int.exists_greatest_of_bdd
    (P := fun i => ∃ j, li ≤ i ∧ i < hi ∧ lj ≤ j ∧ j < hj ∧ off i j = k)
    ⟨hi, fun z hz => by obtain ⟨_, hz⟩ := hz; omega⟩ ⟨i0, j0, h0⟩
  exact ⟨ub, j, hub, fun i2 j2 a b c d e => hmax i2 ⟨j2, a, b, c, d, e⟩⟩

/-- The result of the nested store loops, element by element. -/
theorem nested_store_result {α : Type} (m : Memory α) (p : Nat) (off : Int → Int → Int)
    (val : Memory α → Int → Int → α) (v : Int → Int → α) (li hi lj hj : Int)
    (hoff : ∀ i j j2, off i j = off i j2 → j = j2)
    (hval : ∀ (r : Memory α) i j, (∀ q k, q ≠ p → r q k = m q k) → val r i j = v i j)
    (i j : Int) (hi1 : li ≤ i) (hi2 : i < hi) (hj1 : lj ≤ j) (hj2 : j < hj)
    (hlast : ∀ i2 j2, li ≤ i2 → i2 < hi → lj ≤ j2 → j2 < hj → off i2 j2 = off i j → i2 ≤ i) :
    cfor li hi (fun i r => cfor lj hj (fun j r => r.store p (off i j) (val r i j)) r) m
      p (off i j) = v i j := by
  have h := (nested_store_spec m p off val v li hi lj hj hoff hval).2.2
  exact h i j ⟨hi1, hi2, hj1, hj2, Or.inl hi2⟩
    (fun i2 j2 hv he => hlast i2 j2 hv.1 hv.2.1 hv.2.2.1 hv.2.2.2.1 he)

/-- Every element of the target block either keeps its content or holds the
value stored for one of the cells. -/
theorem nested_store_cases {α : Type} (m : Memory α) (p : Nat) (off : Int → Int → Int)
    (val : Memory α → Int → Int → α) (v : Int → Int → α) (li hi lj hj : Int)
    (hoff : ∀ i j j2, off i j = off i j2 → j = j2)
    (hval : ∀ (r : Memory α) i j, (∀ q k, q ≠ p → r q k = m q k) → val r i j = v i j)
    (k : Int) :
    cfor li hi (fun i r => cfor lj hj (fun j r => r.store p (off i j) (val r i j)) r) m p k
        = m p k ∨
    ∃ i j, li ≤ i ∧ i < hi ∧ lj ≤ j ∧ j < hj ∧ off i j = k ∧
      cfor li hi (fun i r => cfor lj hj (fun j r => r.store p (off i j) (val r i j)) r) m p k
        = v i j := by
  by_cases h : ∃ i j, li ≤ i ∧ i < hi ∧ lj ≤ j ∧ j < hj ∧ off i j = k
  · obtain ⟨i, j, ⟨a, b, c, d, e⟩, hmax⟩ := exists_last_writer off li hi lj hj k h
    refine Or.inr ⟨i, j, a, b, c, d, e, ?_⟩
    have := nested_store_result m p off val v li hi lj hj hoff hval i j a b c d
      (fun i2 j2 a2 b2 c2 d2 e2 => hmax i2 j2 a2 b2 c2 d2 (e2.trans e))
    rw [e] at this
    exact this
  · left
    apply nested_store_frame
    rintro ⟨_, i, j, a, b, c, d, e⟩
    exact h ⟨i, j, a, b, c, d, e.symm⟩

/-! ## `solve_interior` -/

theorem solve_interior_eq {α : Type} [Field α] (m : Memory α) (current previous : Grid)
    (h : Stepsize α) :
    solve_interior m current previous h =
      cfor 1 (current.len_x - 2) (fun i r => cfor 1 (current.len_y - 2) (fun j r =>
        r.store current.internal_storage ((fun i j => i * current.len_x + (j - 1)) i j)
          ((fun r i j => uijnP1 r previous h i j) r i j)) r) m := rfl

/-- The value of an iteration only depends on the block of `previous`. -/
theorem uijnP1_congr {α : Type} [Field α] (m r : Memory α) (previous : Grid) (h : Stepsize α)
    (i j : Int) (e : ∀ k, r previous.internal_storage k = m previous.internal_storage k) :
    uijnP1 r previous h i j = uijnP1 m previous h i j := by
  simp only [uijnP1, e]

/-- What `solve_interior` leaves in a cell that no later iteration overwrites. -/
theorem solve_interior_cell {α : Type} [Field α] (m : Memory α) (current previous : Grid)
    (h : Stepsize α) (hne : previous.internal_storage ≠ current.internal_storage)
    (i j : Int) (hi1 : 1 ≤ i) (hi2 : i < current.len_x - 2) (hj1 : 1 ≤ j)
    (hj2 : j < current.len_y - 2)
    (hlast : ∀ i2 j2, 1 ≤ i2 → i2 < current.len_x - 2 → 1 ≤ j2 → j2 < current.len_y - 2 →
      i2 * current.len_x + (j2 - 1) = i * current.len_x + (j - 1) → i2 ≤ i) :
    solve_interior m current previous h current.internal_storage (i * current.len_x + (j - 1))
      = uijnP1 m previous h i j := by
  rw [solve_interior_eq]
  exact nested_store_result m current.internal_storage (fun i j => i * current.len_x + (j - 1))
    (fun r i j => uijnP1 r previous h i j) (fun i j => uijnP1 m previous h i j) 1 _ 1 _
    (fun i j j2 e => by simp only at e; omega)
    (fun r i j hr => uijnP1_congr m r previous h i j (fun k => hr _ k hne))
    i j hi1 hi2 hj1 hj2 hlast

/-- An element that is not the target of a store of `solve_interior` keeps its
value. -/
theorem solve_interior_unwritten {α : Type} [Field α] (m : Memory α) (current previous : Grid)
    (h : Stepsize α) (q : Nat) (k : Int)
    (hk : ¬ (q = current.internal_storage ∧
        ∃ i j, 1 ≤ i ∧ i < current.len_x - 2 ∧ 1 ≤ j ∧ j < current.len_y - 2 ∧
          k = i * current.len_x + (j - 1))) :
    solve_interior m current previous h q k = m q k := by
  rw [solve_interior_eq]
  exact nested_store_frame m _ _ _ 1 _ 1 _ q k hk

/-- Frame of `solve_interior` in the block model: the stores go to the block of
`current`, at the offsets `i*len_x + (j-1)` of the cells `1 ≤ i < len_x-2`,
`1 ≤ j < len_y-2`, whether or not these offsets are inside the storage of
`current`; every other element of the memory keeps its value, and with
`len_x ≤ 3` or `len_y ≤ 3` nothing at all is written. -/
theorem solve_interior_frame {α : Type} [Field α] (m : Memory α) (current previous : Grid)
    (h : Stepsize α) :
    (∀ q k, ¬ (q = current.internal_storage ∧
        ∃ i j, 1 ≤ i ∧ i < current.len_x - 2 ∧ 1 ≤ j ∧ j < current.len_y - 2 ∧
          k = i * current.len_x + (j - 1)) →
      solve_interior m current previous h q k = m q k) ∧
    (previous.internal_storage ≠ current.internal_storage →
      ∀ k, solve_interior m current previous h previous.internal_storage k
        = m previous.internal_storage k) ∧
    (current.len_x ≤ 3 ∨ current.len_y ≤ 3 → solve_interior m current previous h = m) := by
  have hframe := solve_interior_unwritten m current previous h
  refine ⟨hframe, ?_, ?_⟩
  · intro hne k
    exact hframe _ k (fun hk => hne hk.1)
  · intro hsmall
    funext q k
    apply hframe
    rintro ⟨_, i, j, a, b, c, d, _⟩
    omega

/-- Two runs of `solve_interior` on current grids of the same dimensions agree on
every cell `1 ≤ i < len_x-2`, `1 ≤ j < len_y-2` when the two memories agree on
the whole block of `previous`, the elements beside its storage included
(`hprev`), and `previous` is a block other than the current ones. -/
theorem solve_interior_deterministic {α : Type} [Field α] (m1 m2 : Memory α)
    (c1 c2 previous : Grid) (h : Stepsize α)
    (hx1 : c1.len_x = previous.len_x) (hy1 : c1.len_y = previous.len_y)
    (hx2 : c2.len_x = previous.len_x) (hy2 : c2.len_y = previous.len_y)
    (hne1 : previous.internal_storage ≠ c1.internal_storage)
    (hne2 : previous.internal_storage ≠ c2.internal_storage)
    (hprev : ∀ k, m1 previous.internal_storage k = m2 previous.internal_storage k)
    (i j : Int) (hi1 : 1 ≤ i) (hi2 : i < previous.len_x - 2) (hj1 : 1 ≤ j)
    (hj2 : j < previous.len_y - 2) :
    solve_interior m1 c1 previous h c1.internal_storage (i * c1.len_x + (j - 1))
      = solve_interior m2 c2 previous h c2.internal_storage (i * c2.len_x + (j - 1)) := by
  obtain ⟨a, b, ⟨ha1, ha2, hb1, hb2, hab⟩, hmax⟩ :=
    exists_last_writer (fun i j => i * previous.len_x + (j - 1)) 1 (previous.len_x - 2) 1
      (previous.len_y - 2) (i * previous.len_x + (j - 1)) ⟨i, j, hi1, hi2, hj1, hj2, rfl⟩
  have e1 := solve_interior_cell m1 c1 previous h hne1 a b (by omega) (by omega) (by omega)
    (by omega) (by
      intro i2 j2 p1 p2 p3 p4 p5
      rw [hx1] at p5
      exact hmax i2 j2 p1 (by omega) p3 (by omega) (p5.trans hab))
  have e2 := solve_interior_cell m2 c2 previous h hne2 a b (by omega) (by omega) (by omega)
    (by omega) (by
      intro i2 j2 p1 p2 p3 p4 p5
      rw [hx2] at p5
      exact hmax i2 j2 p1 (by omega) p3 (by omega) (p5.trans hab))
  rw [hx1] at e1 ⊢
  rw [hx2] at e2 ⊢
  rw [← hab, e1, e2]
  exact uijnP1_congr m2 m1 previous h a b hprev

theorem solve_interior_deterministic_witness :
    solve_interior (fun _ k => (k : ℚ)) ⟨0, 4, 4⟩ ⟨1, 4, 4⟩ ⟨1, 1, 1⟩ 0 (1 * 4 + (1 - 1))
      = solve_interior (fun p k => if p = 1 then (k : ℚ) else 7) ⟨2, 4, 4⟩ ⟨1, 4, 4⟩ ⟨1, 1, 1⟩
          2 (1 * 4 + (1 - 1)) :=
  solve_interior_deterministic (fun _ k => (k : ℚ)) (fun p k => if p = 1 then (k : ℚ) else 7)
    ⟨0, 4, 4⟩ ⟨2, 4, 4⟩ ⟨1, 4, 4⟩ ⟨1, 1, 1⟩ rfl rfl rfl rfl (by decide) (by decide)
    (fun k => by simp) 1 1 (by decide) (by decide) (by decide) (by decide)

/-! ## The stencil against the specification -/

/-- What an iteration of `solve_interior` reads, offset by offset: the row
neighbours are taken at `i + len_x + (j-1)` and `i - len_x + (j-1)`. -/
theorem uijnP1_offsets {α : Type} [Field α] (m : Memory α) (previous : Grid) (h : Stepsize α)
    (i j : Int) :
    uijnP1 m previous h i j =
      m previous.internal_storage (i * previous.len_x + (j - 1))
      + h.t * (m previous.internal_storage (i + previous.len_x + (j - 1))
          - 2 * m previous.internal_storage (i * previous.len_x + (j - 1))
          + m previous.internal_storage (i - previous.len_x + (j - 1))) / (h.x * h.x)
      + h.t * (m previous.internal_storage (i * previous.len_x + j)
          - 2 * m previous.internal_storage (i * previous.len_x + (j - 1))
          + m previous.internal_storage (i * previous.len_x + (j - 2))) / (h.y * h.y) := by
  simp only [uijnP1, one_mul, add_sub_cancel_right, sub_sub, one_add_one_eq_two]

/-- One update is a convex combination of the five values it reads when
`h.t/h.x² + h.t/h.y² ≤ 1/2`: it stays between any bounds of these values. -/
theorem uijnP1_between {α : Type} [LinearOrderedField α] (m : Memory α) (previous : Grid)
    (h : Stepsize α) (i j : Int) (hx : 0 < h.x) (hy : 0 < h.y) (ht : 0 < h.t)
    (hs : h.t / h.x ^ 2 + h.t / h.y ^ 2 ≤ 1 / 2) (lo hi : α)
    (hb : ∀ k, lo ≤ m previous.internal_storage k ∧ m previous.internal_storage k ≤ hi) :
    lo ≤ uijnP1 m previous h i j ∧ uijnP1 m previous h i j ≤ hi := by
  rw [uijnP1_offsets]
  obtain ⟨a1, a2⟩ := hb (i + previous.len_x + (j - 1))
  obtain ⟨b1, b2⟩ := hb (i - previous.len_x + (j - 1))
  obtain ⟨c1, c2⟩ := hb (i * previous.len_x + j)
  obtain ⟨d1, d2⟩ := hb (i * previous.len_x + (j - 2))
  obtain ⟨u1, u2⟩ := hb (i * previous.len_x + (j - 1))
  generalize m previous.internal_storage (i + previous.len_x + (j - 1)) = a at *
  generalize m previous.internal_storage (i - previous.len_x + (j - 1)) = b at *
  generalize m previous.internal_storage (i * previous.len_x + j) = c at *
  generalize m previous.internal_storage (i * previous.len_x + (j - 2)) = d at *
  generalize m previous.internal_storage (i * previous.len_x + (j - 1)) = u at *
  have hrx : 0 ≤ h.t / (h.x * h.x) := by positivity
  have hry : 0 ≤ h.t / (h.y * h.y) := by positivity
  have hs2 : h.t / (h.x * h.x) + h.t / (h.y * h.y) ≤ 1 / 2 := by
    rw [← pow_two, ← pow_two]; exact hs
  have e : u + h.t * (a - 2 * u + b) / (h.x * h.x) + h.t * (c - 2 * u + d) / (h.y * h.y)
      = (1 - 2 * (h.t / (h.x * h.x)) - 2 * (h.t / (h.y * h.y))) * u
        + h.t / (h.x * h.x) * (a + b) + h.t / (h.y * h.y) * (c + d) := by
    ring
  rw [e]
  generalize h.t / (h.x * h.x) = rx at *
  generalize h.t / (h.y * h.y) = ry at *
  have w : 0 ≤ 1 - 2 * rx - 2 * ry := by linarith
  constructor
  · have key : (1 - 2 * rx - 2 * ry) * u + rx * (a + b) + ry * (c + d) - lo
        = (1 - 2 * rx - 2 * ry) * (u - lo) + rx * ((a - lo) + (b - lo))
          + ry * ((c - lo) + (d - lo)) := by ring
    have pos : 0 ≤ (1 - 2 * rx - 2 * ry) * (u - lo) + rx * ((a - lo) + (b - lo))
          + ry * ((c - lo) + (d - lo)) :=
      add_nonneg (add_nonneg (mul_nonneg w (sub_nonneg.2 u1))
        (mul_nonneg hrx (add_nonneg (sub_nonneg.2 a1) (sub_nonneg.2 b1))))
        (mul_nonneg hry (add_nonneg (sub_nonneg.2 c1) (sub_nonneg.2 d1)))
    linarith
  · have key : hi - ((1 - 2 * rx - 2 * ry) * u + rx * (a + b) + ry * (c + d))
        = (1 - 2 * rx - 2 * ry) * (hi - u) + rx * ((hi - a) + (hi - b))
          + ry * ((hi - c) + (hi - d)) := by ring
    have pos : 0 ≤ (1 - 2 * rx - 2 * ry) * (hi - u) + rx * ((hi - a) + (hi - b))
          + ry * ((hi - c) + (hi - d)) :=
      add_nonneg (add_nonneg (mul_nonneg w (sub_nonneg.2 u2))
        (mul_nonneg hrx (add_nonneg (sub_nonneg.2 a2) (sub_nonneg.2 b2))))
        (mul_nonneg hry (add_nonneg (sub_nonneg.2 c2) (sub_nonneg.2 d2)))
    linarith

/-- C1 (evaluated at a failing input): `current` and `previous` are 4 by 7 grids,
`previous` holds 1 at offset 11, which is `previous[2,4]`, and 0 elsewhere,
`h = (1,1,1)`.  The specification gives `current[1,4] = 1`; `solve_interior`
leaves 0 there, because it reads offsets 8 and 0 where the specification has
`previous[2,4]` (offset 11) and `previous[0,4]` (offset 3). -/
theorem solve_interior_differs_from_spec_update :
    solve_interior (fun p k => if p = 1 ∧ k = 11 then (1 : ℚ) else 0) ⟨0, 4, 7⟩ ⟨1, 4, 7⟩
        ⟨1, 1, 1⟩ 0 (1 * 4 + (4 - 1)) = 0 ∧
    spec_update (fun p k => if p = 1 ∧ k = 11 then (1 : ℚ) else 0) ⟨1, 4, 7⟩ ⟨1, 1, 1⟩ 1 4
      = 1 := by
  constructor
  · simp [solve_interior, cfor, forLoop, uijnP1]
  · simp [spec_update, spec_element]

/-! ## `generate_initial_conditions` -/

theorem generate_initial_conditions_eq {α : Type} [Field α] (sinf : α → α) (hp : Heap α)
    (len_x len_y : Int) :
    (generate_initial_conditions sinf hp len_x len_y).2.cells =
      cfor 0 len_x (fun i r => cfor 0 len_y (fun j r =>
        r.store hp.next ((fun i j => i * len_x + (j - 1)) i j)
          ((fun (_ : Memory α) (i _ : Int) => sinf ((i : α) * (1 / (len_x : α)))) r i j)) r)
        hp.cells := rfl

theorem generate_initial_conditions_grid {α : Type} [Field α] (sinf : α → α) (hp : Heap α)
    (len_x len_y : Int) :
    (generate_initial_conditions sinf hp len_x len_y).1 = ⟨hp.next, len_x, len_y⟩ := rfl

/-- Two cells of a row-stride `len_x` layout with columns below `len_x` share an
offset only if they are in the same row. -/
theorem row_of_offset (len_x i j i2 j2 : Int) (hj : 0 ≤ j) (hj2 : 0 ≤ j2)
    (hjx : j < len_x) (hj2x : j2 < len_x)
    (e : i2 * len_x + (j2 - 1) = i * len_x + (j - 1)) : i2 = i := by
  have h : (i2 - i) * len_x = j - j2 := by linarith
  rcases lt_trichotomy i2 i with hlt | heq | hgt
  · have h1 : (i - i2) * len_x ≥ 1 * len_x :=
      mul_le_mul_of_nonneg_right (by omega) (by omega)
    nlinarith
  · exact heq
  · have h1 : (i2 - i) * len_x ≥ 1 * len_x :=
      mul_le_mul_of_nonneg_right (by omega) (by omega)
    nlinarith

/-- When `len_y ≤ len_x` (or there is a single row, `len_x = 1`), no two cells
share an offset, and after `generate_initial_conditions` the element of the
block at offset `i*len_x + (j-1)` holds `sin(i/len_x)`, for all `0 ≤ i < len_x`,
`0 ≤ j < len_y`; the offset is `-1`, before the storage, for `i = j = 0`. -/
theorem generate_initial_conditions_cell {α : Type} [Field α] (sinf : α → α) (hp : Heap α)
    (len_x len_y : Int) (hyx : len_y ≤ len_x ∨ len_x = 1)
    (i j : Int) (hi1 : 0 ≤ i) (hi2 : i < len_x) (hj1 : 0 ≤ j) (hj2 : j < len_y) :
    (generate_initial_conditions sinf hp len_x len_y).2.cells
        (generate_initial_conditions sinf hp len_x len_y).1.internal_storage
        (i * len_x + (j - 1))
      = sinf ((i : α) / (len_x : α)) := by
  rw [generate_initial_conditions_eq, generate_initial_conditions_grid]
  simp only [mul_one_div]
  exact nested_store_result hp.cells hp.next (fun i j => i * len_x + (j - 1))
    (fun _ i _ => sinf ((i : α) / (len_x : α)))
    (fun i _ => sinf ((i : α) / (len_x : α))) 0 len_x 0 len_y
    (fun i j j2 e => by simp only at e; omega) (fun _ _ _ _ => rfl) i j hi1 hi2 hj1 hj2
    (by
      intro i2 j2 a b c d e
      rcases hyx with hyx | hyx
      · exact le_of_eq (row_of_offset len_x i j i2 j2 hj1 c (by omega) (by omega) e)
      · omega)

theorem generate_initial_conditions_cell_witness :
    (generate_initial_conditions (fun x : ℚ => x) ⟨fun _ _ => 0, 0⟩ 2 2).2.cells
        (generate_initial_conditions (fun x : ℚ => x) ⟨fun _ _ => 0, 0⟩ 2 2).1.internal_storage
        (1 * 2 + (1 - 1))
      = (((1 : Int) : ℚ) / ((2 : Int) : ℚ)) :=
  generate_initial_conditions_cell (fun x : ℚ => x) ⟨fun _ _ => 0, 0⟩ 2 2 (Or.inl (by decide))
    1 1 (by decide) (by decide) (by decide) (by decide)

/-- C2 (evaluated at a failing input): on a 2 by 3 grid, storage offsets 0 to 5,
the cells `(0,2)` and `(1,0)` are the same storage element, offset 1;
`generate_initial_conditions` writes it for `(0,2)` first and for `(1,0)` last,
so that it holds `sin(1/2)` and not the `sin(0/2)` of the claim for `i = 0`,
`j = 2`. -/
theorem generate_initial_conditions_rows_overlap :
    in_storage ⟨0, 2, 3⟩ (0 * 2 + (2 - 1)) = true ∧
    (0 : Int) * 2 + (2 - 1) = 1 * 2 + (0 - 1) ∧
    (generate_initial_conditions Real.sin ⟨fun _ _ => 0, 0⟩ 2 3).2.cells
        (generate_initial_conditions Real.sin ⟨fun _ _ => 0, 0⟩ 2 3).1.internal_storage
        (0 * 2 + (2 - 1))
      = Real.sin (1 / 2) ∧
    (generate_initial_conditions Real.sin ⟨fun _ _ => 0, 0⟩ 2 3).2.cells
        (generate_initial_conditions Real.sin ⟨fun _ _ => 0, 0⟩ 2 3).1.internal_storage
        (0 * 2 + (2 - 1))
      ≠ Real.sin (((0 : Int) : ℝ) / ((2 : Int) : ℝ)) := by
  have hpos : 0 < Real.sin (1 / 2) :=
    Real.sin_pos_of_pos_of_lt_pi (by norm_num) (by linarith [Real.pi_gt_three])
  have e : (generate_initial_conditions Real.sin ⟨fun _ _ => 0, 0⟩ 2 3).2.cells
      (generate_initial_conditions Real.sin ⟨fun _ _ => 0, 0⟩ 2 3).1.internal_storage
      (0 * 2 + (2 - 1)) = Real.sin (1 / 2) := by
    simp [generate_initial_conditions, alloc_grid, cfor, forLoop]
  refine ⟨by decide, by decide, e, ?_⟩
  rw [e]
  simp only [Int.cast_zero, zero_div, Real.sin_zero]
  exact ne_of_gt hpos

/-! ## `apply_boundary_conditions` -/

/-- C3 (evaluated at failing inputs): on a 4 by 4 grid filled with 1 the cell of
row 3, the last one, and column 1, at offset `(4-1)*4 + (1-1) = 12`, is still 1
after `apply_boundary_conditions`: the West loop writes
`g.internal_storage[(g.len_x - 1 * g.len_x) + (j - 1)]`, the offsets `j - 1` of
row 0.  On a 4 by 5 grid the cell of row 0 and column 5, at offset 4, is still
1: the East loop stops at column 4. -/
theorem apply_boundary_conditions_misses_last_row :
    apply_boundary_conditions (fun _ _ => (1 : ℚ)) ⟨0, 4, 4⟩ 0 ((4 - 1) * 4 + (1 - 1)) = 1 ∧
    apply_boundary_conditions (fun _ _ => (1 : ℚ)) ⟨0, 4, 5⟩ 0 (0 * 4 + (5 - 1)) = 1 := by
  constructor <;> decide

/-- C4 (evaluated at a failing input): on a 4 by 4 grid filled with 1 the cell of
row 1 and column 1, at offset `1*4 + 0 = 4`, and the cell of row 3 and column 4,
at offset `3*4 + (4-1) = 15`, are still 1 after `apply_boundary_conditions`:
the North loop writes the offsets `i*len_x - 1` and the South loop the offsets
`i*len_x + len_y - 2`. -/
theorem apply_boundary_conditions_misses_first_column :
    apply_boundary_conditions (fun _ _ => (1 : ℚ)) ⟨0, 4, 4⟩ 0 (1 * 4 + 0) = 1 ∧
    apply_boundary_conditions (fun _ _ => (1 : ℚ)) ⟨0, 4, 4⟩ 0 (3 * 4 + (4 - 1)) = 1 := by
  constructor <;> decide

/-! ## The time loop -/

/-- C8 (evaluated at a failing input): 4 by 4 grids, `grids_by_timestep[0]` in
block 0, and two heaps that differ only in the block `malloc` hands out next,
filled with 0 in one and with 1 in the other.  After the transition the new
grid, in block 1, holds at offset 5 what `malloc` returned: 0 in one run and 1
in the other. -/
theorem time_step_keeps_malloc_contents :
    ((time_step 4 4 ⟨1, 1, 1⟩ 1
        (⟨fun p k => if p = 0 then (k : ℚ) else 0, 1⟩, fun _ => ⟨0, 4, 4⟩)).2 1 = ⟨1, 4, 4⟩ ∧
      (time_step 4 4 ⟨1, 1, 1⟩ 1
        (⟨fun p k => if p = 0 then (k : ℚ) else 0, 1⟩, fun _ => ⟨0, 4, 4⟩)).1.cells 1 5 = 0) ∧
    ((time_step 4 4 ⟨1, 1, 1⟩ 1
        (⟨fun p k => if p = 0 then (k : ℚ) else 1, 1⟩, fun _ => ⟨0, 4, 4⟩)).2 1 = ⟨1, 4, 4⟩ ∧
      (time_step 4 4 ⟨1, 1, 1⟩ 1
        (⟨fun p k => if p = 0 then (k : ℚ) else 1, 1⟩, fun _ => ⟨0, 4, 4⟩)).1.cells 1 5 = 1) := by
  refine ⟨⟨?_, ?_⟩, ?_, ?_⟩ <;>
    simp [time_step, alloc_grid, apply_boundary_conditions, solve_interior, cfor, forLoop,
      uijnP1]

theorem apply_boundary_conditions_frame {α : Type} [Field α] (m : Memory α) (g : Grid)
    (q : Nat) (hq : q ≠ g.internal_storage) (k : Int) :
    apply_boundary_conditions m g q k = m q k := by
  have step : ∀ (off : Int → Int) (lo hi : Int) (r : Memory α),
      cfor lo hi (fun i r => r.store g.internal_storage (off i) 0) r q k = r q k := by
    intro off lo hi r
    refine cfor_inv_const (fun r2 => r2 q k = r q k) _ lo hi r rfl ?_
    intro i r2 _ _ h2
    simp only [Memory.store_apply, hq, false_and, if_false]
    exact h2
  unfold apply_boundary_conditions
  rw [step (fun j => (g.len_x - 1 * g.len_x) + (j - 1)), step (fun j => (0 * g.len_x) + (j - 1)),
    step (fun i => (i * g.len_x) + (g.len_y - 1 - 1)), step (fun i => (i * g.len_x) + (0 - 1))]

theorem time_step_next {α : Type} [Field α] (len_x len_y : Int) (h : Stepsize α) (tau : Int)
    (s : Heap α × (Int → Grid)) :
    (time_step len_x len_y h tau s).1.next = s.1.next + 1 := rfl

/-- A pass of the time loop writes into the block it allocates only. -/
theorem time_step_frame {α : Type} [Field α] (len_x len_y : Int) (h : Stepsize α) (tau : Int)
    (s : Heap α × (Int → Grid)) (q : Nat) (hq : q ≠ s.1.next) (k : Int) :
    (time_step len_x len_y h tau s).1.cells q k = s.1.cells q k := by
  unfold time_step
  simp only [alloc_grid, Function.update_same]
  rw [solve_interior_unwritten _ _ _ h q k (fun hk => hq hk.1)]
  exact apply_boundary_conditions_frame _ _ q hq k

theorem time_step_grids {α : Type} [Field α] (len_x len_y : Int) (h : Stepsize α) (tau : Int)
    (s : Heap α × (Int → Grid)) (n : Int) (hn : n ≠ tau) :
    (time_step len_x len_y h tau s).2 n = s.2 n := by
  simp [time_step, Function.update_noteq hn]

/-- Later passes of the time loop leave the blocks allocated so far, and the
slots of `grids_by_timestep` assigned so far, as they are. -/
theorem forLoop_time_step_frame {α : Type} [Field α] (len_x len_y : Int) (h : Stepsize α)
    (n : Nat) (lo : Int) (s : Heap α × (Int → Grid)) (q : Nat) (hq : q < s.1.next) (t : Int)
    (ht : t < lo) :
    (∀ k, (forLoop n lo (time_step len_x len_y h) s).1.cells q k = s.1.cells q k) ∧
    (forLoop n lo (time_step len_x len_y h) s).2 t = s.2 t := by
  have := forLoop_inv
    (fun (_ : Int) (r : Heap α × (Int → Grid)) =>
      s.1.next ≤ r.1.next ∧ (∀ k, r.1.cells q k = s.1.cells q k) ∧ r.2 t = s.2 t)
    (time_step len_x len_y h) n lo s ⟨le_rfl, fun _ => rfl, rfl⟩
    (by
      intro i r hi1 _ hr
      refine ⟨?_, ?_, ?_⟩
      · rw [time_step_next]; omega
      · intro k
        rw [time_step_frame _ _ _ _ _ _ (by omega), hr.2.1]
      · rw [time_step_grids _ _ _ _ _ _ (by omega), hr.2.2])
  exact ⟨this.2.1, this.2.2⟩

/-- Every element of the heap after `generate_initial_conditions` is what it
was before or a value of `sinf`. -/
theorem generate_initial_conditions_cases {α : Type} [Field α] (sinf : α → α) (hp : Heap α)
    (len_x len_y : Int) (q : Nat) (k : Int) :
    (generate_initial_conditions sinf hp len_x len_y).2.cells q k = hp.cells q k ∨
    ∃ i : Int, 0 ≤ i ∧ i < len_x ∧
      (generate_initial_conditions sinf hp len_x len_y).2.cells q k
        = sinf ((i : α) * (1 / (len_x : α))) := by
  rw [generate_initial_conditions_eq]
  by_cases hq : q = hp.next
  · subst hq
    rcases nested_store_cases hp.cells hp.next (fun i j => i * len_x + (j - 1))
      (fun _ i _ => sinf ((i : α) * (1 / (len_x : α))))
      (fun i _ => sinf ((i : α) * (1 / (len_x : α)))) 0 len_x 0 len_y
      (fun i j j2 e => by simp only at e; omega) (fun _ _ _ _ => rfl) k with h | ⟨i, j, a, b, _, _, _, e⟩
    · exact Or.inl h
    · exact Or.inr ⟨i, a, b, e⟩
  · left
    apply nested_store_frame
    exact fun h => hq h.1

/-- The first two passes of the time loop for `-x 4 -y 7 -t 130`, when the block
`malloc` returns for `grids_by_timestep[1]` holds 4 at offset 8: the value of
the cell `(1,4)` of `grids_by_timestep[2]`. -/
theorem time_step_twice_cell :
    (time_step 4 7 (stepsize_from_grid_options ⟨4, 7, 130⟩) 2
      (time_step 4 7 (stepsize_from_grid_options ⟨4, 7, 130⟩) 1
        ((generate_initial_conditions Real.sin
            ⟨fun p k => if p = 1 ∧ k = 8 then (4 : ℝ) else 0, 0⟩ 4 7).2,
          Function.update (fun _ => ⟨0, 0, 0⟩) 0
            (generate_initial_conditions Real.sin
              ⟨fun p k => if p = 1 ∧ k = 8 then (4 : ℝ) else 0, 0⟩ 4 7).1))).1.cells 2
        (1 * 4 + (4 - 1))
      = 2 + 49 / 130 * (16 / 130 * Real.sin (1 / 2)
          + 49 / 130 * (Real.sin (1 / 2) + Real.sin (1 / 4))) := by
  simp [time_step, generate_initial_conditions, alloc_grid, stepsize_from_grid_options,
    apply_boundary_conditions, solve_interior, cfor, forLoop, uijnP1]
  have e : (2 : ℝ) * 4⁻¹ = 2⁻¹ := by norm_num
  rw [e]
  ring

/-- C5 (evaluated at a failing input): the run for `-x 4 -y 7 -t 130`, whose
stepsize `(1/4, 1/7, 1/130)` has `h.t/h.x² + h.t/h.y² = 1/2`, on a heap that is 0
except for the value 4 at offset 8 of the block `malloc` returns for
`grids_by_timestep[1]`.  No element of the initial-condition grid is above 1,
and the cell `(1,4)` of `grids_by_timestep[2]`, at offset `1*4 + (4-1)`, is at
least 2: the stencil for it reads offset 8 of `grids_by_timestep[1]`, which no
loop of the first transition writes. -/
theorem solve_problem_exceeds_initial_maximum :
    ((stepsize_from_grid_options ⟨4, 7, 130⟩ : Stepsize ℝ).t
          / (stepsize_from_grid_options ⟨4, 7, 130⟩ : Stepsize ℝ).x ^ 2
        + (stepsize_from_grid_options ⟨4, 7, 130⟩ : Stepsize ℝ).t
          / (stepsize_from_grid_options ⟨4, 7, 130⟩ : Stepsize ℝ).y ^ 2 ≤ 1 / 2 ∧
      0 < (stepsize_from_grid_options ⟨4, 7, 130⟩ : Stepsize ℝ).x ∧
      0 < (stepsize_from_grid_options ⟨4, 7, 130⟩ : Stepsize ℝ).y ∧
      0 < (stepsize_from_grid_options ⟨4, 7, 130⟩ : Stepsize ℝ).t) ∧
    (∀ k, (generate_initial_conditions Real.sin
        ⟨fun p k => if p = 1 ∧ k = 8 then (4 : ℝ) else 0, 0⟩ 4 7).2.cells 0 k ≤ 1) ∧
    (solve_problem Real.sin ⟨fun p k => if p = 1 ∧ k = 8 then (4 : ℝ) else 0, 0⟩
        (fun _ => ⟨0, 0, 0⟩) 4 7 130 (stepsize_from_grid_options ⟨4, 7, 130⟩)).2 2
      = ⟨2, 4, 7⟩ ∧
    2 ≤ (solve_problem Real.sin ⟨fun p k => if p = 1 ∧ k = 8 then (4 : ℝ) else 0, 0⟩
        (fun _ => ⟨0, 0, 0⟩) 4 7 130 (stepsize_from_grid_options ⟨4, 7, 130⟩)).1.cells 2
          (1 * 4 + (4 - 1)) := by
  have hloop : ∀ s : Heap ℝ × (Int → Grid),
      cfor 1 130 (time_step 4 7 (stepsize_from_grid_options ⟨4, 7, 130⟩)) s
        = forLoop 127 3 (time_step 4 7 (stepsize_from_grid_options ⟨4, 7, 130⟩))
            (time_step 4 7 (stepsize_from_grid_options ⟨4, 7, 130⟩) 2
              (time_step 4 7 (stepsize_from_grid_options ⟨4, 7, 130⟩) 1 s)) := by
    intro s
    have e : ((130 : Int) - 1).toNat = 127 + 1 + 1 := by decide
    have e2 : (1 : Int) + 1 = 2 := by decide
    have e3 : (2 : Int) + 1 = 3 := by decide
    unfold cfor
    rw [e, forLoop, forLoop, e2, e3]
  refine ⟨?_, ?_, ?_, ?_⟩
  · norm_num [stepsize_from_grid_options]
  · intro k
    rcases generate_initial_conditions_cases Real.sin
      ⟨fun p k => if p = 1 ∧ k = 8 then (4 : ℝ) else 0, 0⟩ 4 7 0 k with h | ⟨i, _, _, h⟩
    · rw [h]; simp
    · rw [h]; exact Real.sin_le_one _
  · unfold solve_problem
    simp only [hloop]
    rw [(forLoop_time_step_frame 4 7 _ 127 3 _ 2 (by simp [time_step_next,
      generate_initial_conditions, alloc_grid]) 2 (by decide)).2]
    simp [time_step, alloc_grid, generate_initial_conditions]
  · unfold solve_problem
    simp only [hloop]
    rw [(forLoop_time_step_frame 4 7 _ 127 3 _ 2 (by simp [time_step_next,
      generate_initial_conditions, alloc_grid]) 2 (by decide)).1, time_step_twice_cell]
    have h1 : 0 ≤ Real.sin (1 / 2) :=
      Real.sin_nonneg_of_nonneg_of_le_pi (by norm_num) (by linarith [Real.pi_gt_three])
    have h2 : 0 ≤ Real.sin (1 / 4) :=
      Real.sin_nonneg_of_nonneg_of_le_pi (by norm_num) (by linarith [Real.pi_gt_three])
    nlinarith

/-! ## `parse_grid_options` -/

/-- C9 (evaluated at the failing input of the claim): invoked with the single
argument `-z`, `argc` is 2, the test `i < argc - 1` fails at `i = 1` and
`parse_grid_options` returns the defaults; the argument is never compared. -/
theorem parse_grid_options_ignores_trailing_flag :
    parse_grid_options ["prog", "-z"] = Outcome.returned ⟨500, 500, 10⟩ := by
  simp [parse_grid_options, parse_loop]

/-- An argument in option position that is followed by another argument and is
none of `-x`, `-y`, `-t` ends the process with status 1. -/
theorem parse_loop_unknown (argv : List String) (i : Nat) (go : GridOptions)
    (hi : (i : Int) < (argv.length : Int) - 1)
    (hx : argv.getD i "" ≠ "-x") (hy : argv.getD i "" ≠ "-y") (ht : argv.getD i "" ≠ "-t") :
    parse_loop argv i go = Outcome.exited 1 := by
  rw [parse_loop]
  simp only [hi, dite_true, hx, hy, ht, if_false]

/-- The field assignment a pair stands for. -/
theorem parse_loop_pair (pre : List String) (o : GridOption) (v : String) (rest : List String)
    (go : GridOptions) :
    parse_loop (pre ++ o.flag :: v :: rest) pre.length go =
      parse_loop ((pre ++ [o.flag, v]) ++ rest) (pre ++ [o.flag, v]).length
        (match o with
          | GridOption.x => { go with len_x := size_t_of_int (atoi v) }
          | GridOption.y => { go with len_y := size_t_of_int (atoi v) }
          | GridOption.t => { go with len_t := size_t_of_int (atoi v) }) := by
  have hlen : ((pre.length : Nat) : Int) < ((pre ++ o.flag :: v :: rest).length : Int) - 1 := by
    simp only [List.length_append, List.length_cons]; push_cast; omega
  have e0 : (pre ++ o.flag :: v :: rest).getD pre.length "" = o.flag := by
    rw [List.getD_append_right _ _ _ _ le_rfl, Nat.sub_self, List.getD_cons_zero]
  have e1 : (pre ++ o.flag :: v :: rest).getD (pre.length + 1) "" = v := by
    have e : pre.length + 1 - pre.length = 0 + 1 := by omega
    rw [List.getD_append_right _ _ _ _ (Nat.le_succ _), e,
      List.getD_cons_succ, List.getD_cons_zero]
  have e2 : (pre ++ [o.flag, v]) ++ rest = pre ++ o.flag :: v :: rest := by simp
  have e3 : (pre ++ [o.flag, v]).length = pre.length + 2 := by simp
  rw [e2, e3]
  conv_lhs => rw [parse_loop]
  simp only [hlen, dite_true, e0, e1]
  cases o <;> simp [GridOption.flag]

theorem strtol_digits_all (cs : List Char) :
    ∀ acc : Nat, cs.all isdigit = true →
      strtol_digits cs acc = cs.foldl (fun n c => 10 * n + (c.toNat - 48)) acc := by
  induction cs with
  | nil => intro acc _; rfl
  | cons c cs ih =>
    intro acc h
    rw [List.all_cons, Bool.and_eq_true] at h
    simp only [strtol_digits, h.1, if_true, List.foldl_cons]
    rw [ih _ h.2, Nat.mul_comm]

/-- On a string of digits whose value fits an `int`, `atoi` followed by the
conversion to `size_t` gives the value. -/
theorem atoi_decimal (s : String) (hd : is_decimal s = true)
    (hv : decimal_value s ≤ 2147483647) :
    size_t_of_int (atoi s) = decimal_value s := by
  unfold is_decimal at hd
  rw [Bool.and_eq_true] at hd
  obtain ⟨hne, hall⟩ := hd
  have hdig := strtol_digits_all s.data 0 hall
  unfold decimal_value at hv ⊢
  cases hs : s.data with
  | nil => simp [hs] at hne
  | cons c cs =>
    rw [hs] at hall hdig hv
    have hc : isdigit c = true := by
      rw [List.all_cons, Bool.and_eq_true] at hall
      exact hall.1
    have hc2 : 48 ≤ c.toNat ∧ c.toNat ≤ 57 := by
      simpa [isdigit] using hc
    have hsp : isspace c = false := by
      simp only [isspace, Bool.or_eq_false_iff, decide_eq_false_iff_not, Bool.and_eq_false_iff]
      omega
    have h45 : c.toNat ≠ 45 := by omega
    have h43 : c.toNat ≠ 43 := by omega
    have hst : strtol (c :: cs) = ((c :: cs).foldl (fun n c => 10 * n + (c.toNat - 48)) 0 : Nat) := by
      have hdrop : (c :: cs).dropWhile isspace = c :: cs := by
        simp [List.dropWhile_cons, hsp]
      unfold strtol
      rw [hdrop]
      simp only [h45, h43, if_false]
      rw [hdig]
      omega
    unfold atoi
    rw [hs, hst]
    generalize (c :: cs).foldl (fun n c => 10 * n + (c.toNat - 48)) 0 = n at hv ⊢
    unfold int_of_long size_t_of_int
    omega

theorem parse_loop_pairs (ps : List (GridOption × String)) :
    ∀ (pre : List String) (go : GridOptions),
      (∀ p ∈ ps, is_decimal p.2 = true ∧ decimal_value p.2 ≤ 2147483647) →
      parse_loop (pre ++ encode_pairs ps) pre.length go
        = Outcome.returned (ps.foldl GridOptions.assign go) := by
  induction ps with
  | nil =>
    intro pre go _
    rw [parse_loop]
    simp [encode_pairs]
  | cons p ps ih =>
    intro pre go h
    obtain ⟨hd, hv⟩ := h p (List.mem_cons_self _ _)
    rw [encode_pairs, parse_loop_pair, ih _ _ (fun q hq => h q (List.mem_cons_of_mem _ hq)),
      List.foldl_cons]
    congr 2
    obtain ⟨o, v⟩ := p
    cases o <;> simp only [GridOptions.assign, atoi_decimal v hd hv]

theorem last_value_append (o : GridOption) (ps : List (GridOption × String))
    (p : GridOption × String) (dflt : Nat) :
    last_value o (ps ++ [p]) dflt
      = if p.1 = o then decimal_value p.2 else last_value o ps dflt := by
  unfold last_value
  by_cases h : p.1 = o
  · simp [List.filter_append, List.filter_cons, h]
  · simp [List.filter_append, List.filter_cons, h]

theorem foldl_assign_last (ps : List (GridOption × String)) (go : GridOptions) :
    ps.foldl GridOptions.assign go
      = ⟨last_value GridOption.x ps go.len_x, last_value GridOption.y ps go.len_y,
          last_value GridOption.t ps go.len_t⟩ := by
  induction ps using List.reverseRecOn with
  | nil => simp [last_value]
  | append_singleton ps p ih =>
    rw [List.foldl_append, List.foldl_cons, List.foldl_nil, ih]
    simp only [last_value_append]
    obtain ⟨o, v⟩ := p
    cases o <;> simp [GridOptions.assign]

/-- The options `parse_grid_options` returns on well-formed pairs. -/
theorem parse_grid_options_last_values (prog : String) (ps : List (GridOption × String))
    (h : ∀ p ∈ ps, is_decimal p.2 = true ∧ decimal_value p.2 ≤ 2147483647) :
    parse_grid_options (argv_of_pairs prog ps)
      = Outcome.returned ⟨last_value GridOption.x ps 500, last_value GridOption.y ps 500,
          last_value GridOption.t ps 10⟩ := by
  have e := parse_loop_pairs ps [prog] ⟨500, 500, 10⟩ h
  rw [foldl_assign_last] at e
  exact e

/-- C10 (as amended): for an argument vector made only of pairs `-x X`, `-y Y`,
`-t T` whose values are strings of digits that write a number not above
2147483647 (the empty vector of pairs included), `parse_grid_options` returns,
and each of `len_x`, `len_y`, `len_t` is the value of the last pair naming that
field, or its default 500, 500, 10 when no pair names it; one more such pair
at the end, for the option `o`, leaves the fields of the other options as they
are. -/
theorem parse_grid_options_pairs (prog : String) (ps : List (GridOption × String))
    (h : ∀ p ∈ ps, is_decimal p.2 = true ∧ decimal_value p.2 ≤ 2147483647) :
    parse_grid_options (argv_of_pairs prog ps)
      = Outcome.returned ⟨last_value GridOption.x ps 500, last_value GridOption.y ps 500,
          last_value GridOption.t ps 10⟩ ∧
    ∀ (o : GridOption) (v : String), is_decimal v = true → decimal_value v ≤ 2147483647 →
      ∃ go go2 : GridOptions,
        parse_grid_options (argv_of_pairs prog ps) = Outcome.returned go ∧
        parse_grid_options (argv_of_pairs prog (ps ++ [(o, v)])) = Outcome.returned go2 ∧
        (o ≠ GridOption.x → go2.len_x = go.len_x) ∧
        (o ≠ GridOption.y → go2.len_y = go.len_y) ∧
        (o ≠ GridOption.t → go2.len_t = go.len_t) := by
  refine ⟨parse_grid_options_last_values prog ps h, ?_⟩
  intro o v hd hv
  have h2 : ∀ p ∈ ps ++ [(o, v)], is_decimal p.2 = true ∧ decimal_value p.2 ≤ 2147483647 := by
    intro p hp
    rcases List.mem_append.1 hp with hp | hp
    · exact h p hp
    · rw [List.mem_singleton.1 hp]
      exact ⟨hd, hv⟩
  refine ⟨_, _, parse_grid_options_last_values prog ps h,
    parse_grid_options_last_values prog _ h2, ?_, ?_, ?_⟩ <;>
  · intro hne
    simp only [last_value_append, hne, if_false]

theorem parse_grid_options_pairs_witness :
    parse_grid_options ["prog", "-x", "12", "-t", "3", "-x", "40"]
      = Outcome.returned ⟨40, 500, 3⟩ := by
  have h := (parse_grid_options_pairs "prog"
    [(GridOption.x, "12"), (GridOption.t, "3"), (GridOption.x, "40")]
    (by simp [is_decimal, decimal_value, isdigit])).1
  simpa [argv_of_pairs, encode_pairs, GridOption.flag, last_value, decimal_value] using h

/-- C10 (counterexample): with `-x 2147483648` the value does not fit the `int`
that `atoi` returns; `len_x` becomes `2^64 - 2^31` and not 2147483648. -/
theorem parse_grid_options_value_overflow :
    is_decimal "2147483648" = true ∧
    parse_grid_options (argv_of_pairs "prog" [(GridOption.x, "2147483648")])
        = Outcome.returned ⟨18446744071562067968, 500, 10⟩ ∧
    last_value GridOption.x [(GridOption.x, "2147483648")] 500 = 2147483648 := by
  refine ⟨?_, ?_, ?_⟩
  · simp [is_decimal, isdigit]
  · simp [parse_grid_options, argv_of_pairs, encode_pairs, GridOption.flag, parse_loop, atoi,
      strtol, strtol_digits, isdigit, isspace, int_of_long, size_t_of_int]
  · simp [last_value, decimal_value]

/-! ## The offsets the loops address -/

/-- Membership in the list a counting loop builds, when each pass adds the
elements `Q i` to the list. -/
theorem cfor_mem {β : Type} (body : Int → List β → List β) (Q : Int → β → Prop)
    (hbody : ∀ i l k, k ∈ body i l ↔ k ∈ l ∨ Q i k) (lo hi : Int) (l0 : List β) (k : β) :
    k ∈ cfor lo hi body l0 ↔ k ∈ l0 ∨ ∃ i, lo ≤ i ∧ i < hi ∧ Q i k := by
  have h := cfor_inv
    (fun I l => ∀ k, k ∈ l ↔ k ∈ l0 ∨ ∃ i, lo ≤ i ∧ i < I ∧ i < hi ∧ Q i k) body lo hi l0
    (by
      intro k
      constructor
      · exact Or.inl
      · rintro (h | ⟨i, h1, h2, _⟩)
        · exact h
        · omega)
    (by
      intro I l hI1 hI2 hl k
      rw [hbody, hl]
      constructor
      · rintro ((h | ⟨i, a, b, c, d⟩) | h)
        · exact Or.inl h
        · exact Or.inr ⟨i, a, by omega, c, d⟩
        · exact Or.inr ⟨I, hI1, by omega, hI2, h⟩
      · rintro (h | ⟨i, a, b, c, d⟩)
        · exact Or.inl (Or.inl h)
        · by_cases e : i = I
          · subst e
            exact Or.inr d
          · exact Or.inl (Or.inr ⟨i, a, by omega, c, d⟩))
  rw [h k]
  constructor
  · rintro (h | ⟨i, a, _, c, d⟩)
    · exact Or.inl h
    · exact Or.inr ⟨i, a, c, d⟩
  · rintro (h | ⟨i, a, c, d⟩)
    · exact Or.inl h
    · exact Or.inr ⟨i, a, by omega, c, d⟩

theorem mem_generate_initial_conditions_writes (len_x len_y k : Int) :
    k ∈ generate_initial_conditions_writes len_x len_y ↔
      ∃ i j, 0 ≤ i ∧ i < len_x ∧ 0 ≤ j ∧ j < len_y ∧ i * len_x + (j - 1) = k := by
  unfold generate_initial_conditions_writes
  rw [cfor_mem _ (fun i k => ∃ j, 0 ≤ j ∧ j < len_y ∧ i * len_x + (j - 1) = k)]
  · simp only [List.not_mem_nil, false_or]
    constructor
    · rintro ⟨i, a, b, j, c, d, e⟩
      exact ⟨i, j, a, b, c, d, e⟩
    · rintro ⟨i, j, a, b, c, d, e⟩
      exact ⟨i, a, b, j, c, d, e⟩
  · intro i l k
    rw [cfor_mem _ (fun j k => i * len_x + (j - 1) = k)]
    intro j l k
    simp [eq_comm]

theorem mem_solve_interior_writes (current : Grid) (k : Int) :
    k ∈ solve_interior_writes current ↔
      ∃ i j, 1 ≤ i ∧ i < current.len_x - 2 ∧ 1 ≤ j ∧ j < current.len_y - 2 ∧
        k = i * current.len_x + (j - 1) := by
  unfold solve_interior_writes
  rw [cfor_mem _
    (fun i k => ∃ j, 1 ≤ j ∧ j < current.len_y - 2 ∧ k = i * current.len_x + (j - 1))]
  · simp only [List.not_mem_nil, false_or]
    constructor
    · rintro ⟨i, a, b, j, c, d, e⟩
      exact ⟨i, j, a, b, c, d, e⟩
    · rintro ⟨i, j, a, b, c, d, e⟩
      exact ⟨i, a, b, j, c, d, e⟩
  · intro i l k
    rw [cfor_mem _ (fun j k => k = i * current.len_x + (j - 1))]
    intro j l k
    simp

theorem mem_solve_interior_reads (current previous : Grid) (k : Int) :
    k ∈ solve_interior_reads current previous ↔
      ∃ i j, 1 ≤ i ∧ i < current.len_x - 2 ∧ 1 ≤ j ∧ j < current.len_y - 2 ∧
        k ∈ uijnP1_reads previous i j := by
  unfold solve_interior_reads
  rw [cfor_mem _
    (fun i k => ∃ j, 1 ≤ j ∧ j < current.len_y - 2 ∧ k ∈ uijnP1_reads previous i j)]
  · simp only [List.not_mem_nil, false_or]
    constructor
    · rintro ⟨i, a, b, j, c, d, e⟩
      exact ⟨i, j, a, b, c, d, e⟩
    · rintro ⟨i, j, a, b, c, d, e⟩
      exact ⟨i, a, b, j, c, d, e⟩
  · intro i l k
    rw [cfor_mem _ (fun j k => k ∈ uijnP1_reads previous i j)]
    intro j l k
    simp

theorem mem_apply_boundary_conditions_writes (g : Grid) (k : Int) :
    k ∈ apply_boundary_conditions_writes g ↔
      (∃ i, 0 ≤ i ∧ i < g.len_x ∧ k = i * g.len_x - 1) ∨
      (∃ i, 0 ≤ i ∧ i < g.len_x ∧ k = i * g.len_x + (g.len_y - 2)) ∨
      (∃ j, 0 ≤ j ∧ j < g.len_y ∧ k = j - 1) := by
  have hb : ∀ (off : Int → Int) (i : Int) (l : List Int) (k : Int),
      k ∈ l ++ [off i] ↔ k ∈ l ∨ k = off i := by
    intro off i l k
    simp
  unfold apply_boundary_conditions_writes
  simp only []
  rw [cfor_mem _ (fun j k => k = (g.len_x - 1 * g.len_x) + (j - 1)) (hb _),
    cfor_mem _ (fun j k => k = (0 * g.len_x) + (j - 1)) (hb _),
    cfor_mem _ (fun i k => k = (i * g.len_x) + (g.len_y - 1 - 1)) (hb _),
    cfor_mem _ (fun i k => k = (i * g.len_x) + (0 - 1)) (hb _)]
  simp only [List.not_mem_nil, false_or]
  constructor
  · rintro (((⟨i, a, b, c⟩ | ⟨i, a, b, c⟩) | ⟨j, a, b, c⟩) | ⟨j, a, b, c⟩)
    · exact Or.inl ⟨i, a, b, by omega⟩
    · exact Or.inr (Or.inl ⟨i, a, b, by omega⟩)
    · exact Or.inr (Or.inr ⟨j, a, b, by omega⟩)
    · exact Or.inr (Or.inr ⟨j, a, b, by omega⟩)
  · rintro (⟨i, a, b, c⟩ | ⟨i, a, b, c⟩ | ⟨j, a, b, c⟩)
    · exact Or.inl (Or.inl (Or.inl ⟨i, a, b, by omega⟩))
    · exact Or.inl (Or.inl (Or.inr ⟨i, a, b, by omega⟩))
    · exact Or.inl (Or.inr ⟨j, a, b, by omega⟩)

/-- A loop that stores the same value `v` at the offsets `off i` of block `p`:
these elements hold `v` afterwards, all other elements are as before. -/
theorem cfor_store_const {α : Type} (m : Memory α) (p : Nat) (off : Int → Int) (v : α)
    (lo hi : Int) (q : Nat) (k : Int) :
    ((q = p ∧ ∃ i, lo ≤ i ∧ i < hi ∧ k = off i) →
      cfor lo hi (fun i r => r.store p (off i) v) m q k = v) ∧
    (¬ (q = p ∧ ∃ i, lo ≤ i ∧ i < hi ∧ k = off i) →
      cfor lo hi (fun i r => r.store p (off i) v) m q k = m q k) := by
  have h := cfor_inv
    (fun I r => ((q = p ∧ ∃ i, lo ≤ i ∧ i < I ∧ i < hi ∧ k = off i) → r q k = v) ∧
      (¬ (q = p ∧ ∃ i, lo ≤ i ∧ i < I ∧ i < hi ∧ k = off i) → r q k = m q k))
    (fun i r => r.store p (off i) v) lo hi m
    ⟨fun h => by obtain ⟨_, i, a, b, _⟩ := h; omega, fun _ => rfl⟩
    (by
      intro I r hI1 hI2 hr
      by_cases e : q = p ∧ k = off I
      · refine ⟨fun _ => by simp [e.1, e.2], fun hn => ?_⟩
        exact absurd ⟨e.1, I, hI1, by omega, hI2, e.2⟩ hn
      · simp only [Memory.store_apply, e, if_false]
        constructor
        · rintro ⟨hq, i, a, b, c, d⟩
          have hne : i ≠ I := fun ei => e ⟨hq, ei ▸ d⟩
          exact hr.1 ⟨hq, i, a, by omega, c, d⟩
        · intro hn
          exact hr.2 (fun hh => by
            obtain ⟨hq, i, a, b, c, d⟩ := hh
            exact hn ⟨hq, i, a, by omega, c, d⟩))
  constructor
  · rintro ⟨hq, i, a, b, c⟩
    exact h.1 ⟨hq, i, a, by omega, b, c⟩
  · intro hn
    exact h.2 (fun hh => by
      obtain ⟨hq, i, a, _, c, d⟩ := hh
      exact hn ⟨hq, i, a, c, d⟩)

/-- After `apply_boundary_conditions` the elements at the offsets it assigns
are 0. -/
theorem apply_boundary_conditions_zeroed {α : Type} [Field α] (m : Memory α) (g : Grid)
    (k : Int) (hk : k ∈ apply_boundary_conditions_writes g) :
    apply_boundary_conditions m g g.internal_storage k = 0 := by
  rw [mem_apply_boundary_conditions_writes] at hk
  unfold apply_boundary_conditions
  by_cases h4 : ∃ j, 0 ≤ j ∧ j < g.len_y ∧ k = (g.len_x - 1 * g.len_x) + (j - 1)
  · exact (cfor_store_const _ _ _ 0 0 g.len_y _ k).1 ⟨rfl, h4⟩
  rw [(cfor_store_const _ _ _ 0 0 g.len_y _ k).2 (fun h => h4 h.2)]
  by_cases h3 : ∃ j, 0 ≤ j ∧ j < g.len_y ∧ k = (0 * g.len_x) + (j - 1)
  · exact (cfor_store_const _ _ _ 0 0 g.len_y _ k).1 ⟨rfl, h3⟩
  rw [(cfor_store_const _ _ _ 0 0 g.len_y _ k).2 (fun h => h3 h.2)]
  by_cases h2 : ∃ i, 0 ≤ i ∧ i < g.len_x ∧ k = (i * g.len_x) + (g.len_y - 1 - 1)
  · exact (cfor_store_const _ _ _ 0 0 g.len_x _ k).1 ⟨rfl, h2⟩
  rw [(cfor_store_const _ _ _ 0 0 g.len_x _ k).2 (fun h => h2 h.2)]
  by_cases h1 : ∃ i, 0 ≤ i ∧ i < g.len_x ∧ k = (i * g.len_x) + (0 - 1)
  · exact (cfor_store_const _ _ _ 0 0 g.len_x _ k).1 ⟨rfl, h1⟩
  exfalso
  rcases hk with ⟨i, a, b, c⟩ | ⟨i, a, b, c⟩ | ⟨j, a, b, c⟩
  · exact h1 ⟨i, a, b, by omega⟩
  · exact h2 ⟨i, a, b, by omega⟩
  · exact h3 ⟨j, a, b, by omega⟩

/-- The elements of `g` at other offsets are left as they are by
`apply_boundary_conditions`. -/
theorem apply_boundary_conditions_unwritten {α : Type} [Field α] (m : Memory α) (g : Grid)
    (k : Int) (hk : k ∉ apply_boundary_conditions_writes g) :
    apply_boundary_conditions m g g.internal_storage k = m g.internal_storage k := by
  rw [mem_apply_boundary_conditions_writes] at hk
  unfold apply_boundary_conditions
  rw [(cfor_store_const _ _ _ 0 0 g.len_y _ k).2 (fun h => by
      obtain ⟨_, j, a, b, c⟩ := h
      exact hk (Or.inr (Or.inr ⟨j, a, b, by omega⟩))),
    (cfor_store_const _ _ _ 0 0 g.len_y _ k).2 (fun h => by
      obtain ⟨_, j, a, b, c⟩ := h
      exact hk (Or.inr (Or.inr ⟨j, a, b, by omega⟩))),
    (cfor_store_const _ _ _ 0 0 g.len_x _ k).2 (fun h => by
      obtain ⟨_, i, a, b, c⟩ := h
      exact hk (Or.inr (Or.inl ⟨i, a, b, by omega⟩))),
    (cfor_store_const _ _ _ 0 0 g.len_x _ k).2 (fun h => by
      obtain ⟨_, i, a, b, c⟩ := h
      exact hk (Or.inl ⟨i, a, b, by omega⟩))]

/-- The elements of `current` at offsets outside `solve_interior_writes` are
left as they are by `solve_interior`. -/
theorem solve_interior_unwritten_list {α : Type} [Field α] (m : Memory α)
    (current previous : Grid) (h : Stepsize α) (k : Int)
    (hk : k ∉ solve_interior_writes current) :
    solve_interior m current previous h current.internal_storage k
      = m current.internal_storage k := by
  apply solve_interior_unwritten
  rintro ⟨_, hw⟩
  exact hk ((mem_solve_interior_writes current k).2 hw)

/-- The elements of the new block at offsets outside
`generate_initial_conditions_writes` are left as `malloc` returned them. -/
theorem generate_initial_conditions_unwritten {α : Type} [Field α] (sinf : α → α)
    (hp : Heap α) (len_x len_y : Int) (k : Int)
    (hk : k ∉ generate_initial_conditions_writes len_x len_y) :
    (generate_initial_conditions sinf hp len_x len_y).2.cells hp.next k
      = hp.cells hp.next k := by
  rw [generate_initial_conditions_eq]
  apply nested_store_frame
  rintro ⟨_, i, j, a, b, c, d, e⟩
  exact hk ((mem_generate_initial_conditions_writes len_x len_y k).2
    ⟨i, j, a, b, c, d, e.symm⟩)

/-- The value of an iteration of `solve_interior` depends on the elements of
`previous` at the offsets `uijnP1_reads` only. -/
theorem uijnP1_congr_reads {α : Type} [Field α] (m r : Memory α) (previous : Grid)
    (h : Stepsize α) (i j : Int)
    (e : ∀ k ∈ uijnP1_reads previous i j,
      r previous.internal_storage k = m previous.internal_storage k) :
    uijnP1 r previous h i j = uijnP1 m previous h i j := by
  simp only [uijnP1_reads, List.mem_cons, List.mem_singleton, List.not_mem_nil, or_false,
    forall_eq_or_imp, forall_eq] at e
  obtain ⟨e1, e2, e3, e4, e5⟩ := e
  simp only [uijnP1, e1, e2, e3, e4, e5]

/-! ## Boundary and interior -/

/-- A multiple of `L` strictly between `-L` and `L` is 0. -/
theorem multiple_between (a L b : Int) (e : a * L = b) (h1 : -L < b) (h2 : b < L) : b = 0 := by
  have hL : 0 < L := by omega
  rcases lt_trichotomy a 0 with ha | ha | ha
  · have : a * L ≤ (-1) * L := mul_le_mul_of_nonneg_right (by omega) (le_of_lt hL)
    omega
  · rw [ha, zero_mul] at e
    exact e.symm
  · have : 1 * L ≤ a * L := mul_le_mul_of_nonneg_right (by omega) (le_of_lt hL)
    omega

/-- With `len_x ≤ 3` or `len_y ≤ len_x + 1` no offset is assigned by both
`solve_interior` and `apply_boundary_conditions`. -/
theorem writes_disjoint (g : Grid) (hsz : g.len_x ≤ 3 ∨ g.len_y ≤ g.len_x + 1) (k : Int)
    (hk : k ∈ solve_interior_writes g) : k ∉ apply_boundary_conditions_writes g := by
  rw [mem_solve_interior_writes] at hk
  rw [mem_apply_boundary_conditions_writes]
  obtain ⟨i, j, hi1, hi2, hj1, hj2, e⟩ := hk
  have hy : g.len_y ≤ g.len_x + 1 := by omega
  rintro (⟨i2, a, b, c⟩ | ⟨i2, a, b, c⟩ | ⟨j2, a, b, c⟩)
  · have := multiple_between (i2 - i) g.len_x j (by rw [sub_mul]; omega) (by omega) (by omega)
    omega
  · have := multiple_between (i2 - i) g.len_x (j - g.len_y + 1) (by rw [sub_mul]; omega)
      (by omega) (by omega)
    omega
  · have : 1 * g.len_x ≤ i * g.len_x := mul_le_mul_of_nonneg_right hi1 (by omega)
    omega

/-- For the offsets the two functions do address: with `len_x ≤ 3` or
`len_y ≤ len_x + 1` those written by `solve_interior` are disjoint from those
zeroed by `apply_boundary_conditions`, and every element that
`apply_boundary_conditions` set to 0 is still 0 after the `solve_interior` call
that follows on the same grid. -/
theorem boundary_survives_solve_interior {α : Type} [Field α] (g : Grid)
    (hsz : g.len_x ≤ 3 ∨ g.len_y ≤ g.len_x + 1) :
    (∀ k, k ∈ solve_interior_writes g → k ∉ apply_boundary_conditions_writes g) ∧
    ∀ (m : Memory α) (previous : Grid) (h : Stepsize α) (k : Int),
      k ∈ apply_boundary_conditions_writes g →
      solve_interior (apply_boundary_conditions m g) g previous h g.internal_storage k = 0 := by
  refine ⟨writes_disjoint g hsz, ?_⟩
  intro m previous h k hk
  rw [solve_interior_unwritten_list _ _ _ _ _ (fun hw => writes_disjoint g hsz k hw hk)]
  exact apply_boundary_conditions_zeroed m g k hk

theorem boundary_survives_solve_interior_witness :
    (∀ k, k ∈ solve_interior_writes ⟨0, 4, 4⟩ →
      k ∉ apply_boundary_conditions_writes ⟨0, 4, 4⟩) ∧
    ∀ (m : Memory ℚ) (previous : Grid) (h : Stepsize ℚ) (k : Int),
      k ∈ apply_boundary_conditions_writes ⟨0, 4, 4⟩ →
      solve_interior (apply_boundary_conditions m ⟨0, 4, 4⟩) ⟨0, 4, 4⟩ previous h
        (Grid.mk 0 4 4).internal_storage k = 0 :=
  boundary_survives_solve_interior ⟨0, 4, 4⟩ (Or.inr (by decide))

/-- C11 (evaluated at a failing input): on a 4 by 7 grid, storage offsets 0 to 27,
offset 7 is zeroed by the North loop of
`apply_boundary_conditions` (`i = 2`) and written by `solve_interior` for the cell
`(1,4)`; with a `previous` grid filled with 1 and `h = (1,1,1)` the element that
was set to 0 holds 1 after `solve_interior`. -/
theorem solve_interior_overwrites_boundary :
    (7 : Int) ∈ apply_boundary_conditions_writes ⟨0, 4, 7⟩ ∧
    (7 : Int) ∈ solve_interior_writes ⟨0, 4, 7⟩ ∧
    apply_boundary_conditions (fun _ _ => (1 : ℚ)) ⟨0, 4, 7⟩ 0 7 = 0 ∧
    solve_interior (apply_boundary_conditions (fun _ _ => (1 : ℚ)) ⟨0, 4, 7⟩) ⟨0, 4, 7⟩
      ⟨1, 4, 7⟩ ⟨1, 1, 1⟩ 0 7 = 1 := by
  refine ⟨by decide, by decide, by decide, ?_⟩
  simp [solve_interior, apply_boundary_conditions, cfor, forLoop, uijnP1]
  norm_num

/-! ## Checked indexing -/

/-- A loop with a failing body that comes to an end has run the body that
cannot fail. -/
theorem forLoopM_sound {σ : Type} (body : Int → σ → σ) (bodyM : Int → σ → Option σ)
    (hb : ∀ i s s2, bodyM i s = some s2 → s2 = body i s) :
    ∀ (n : Nat) (lo : Int) (s r : σ), forLoopM n lo bodyM s = some r →
      r = forLoop n lo body s
  | 0, lo, s, r, h => by
      simp only [forLoopM, Option.some.injEq] at h
      simp [forLoop, h]
  | n + 1, lo, s, r, h => by
      simp only [forLoopM] at h
      cases e : bodyM lo s with
      | none => simp [e] at h
      | some s2 =>
        rw [e] at h
        rw [forLoop, ← hb lo s s2 e]
        exact forLoopM_sound body bodyM hb n (lo + 1) s2 r h

theorem cforM_sound {σ : Type} (body : Int → σ → σ) (bodyM : Int → σ → Option σ)
    (hb : ∀ i s s2, bodyM i s = some s2 → s2 = body i s) (lo hi : Int) (s r : σ)
    (h : cforM lo hi bodyM s = some r) : r = cfor lo hi body s :=
  forLoopM_sound body bodyM hb _ lo s r h

theorem store_checked_sound {α : Type} (m : Memory α) (g : Grid) (k : Int) (v : α)
    (r : Memory α) (h : store_checked m g k v = some r) :
    r = m.store g.internal_storage k v := by
  unfold store_checked at h
  split at h
  · exact (Option.some.inj h).symm
  · exact absurd h (by simp)

theorem load_checked_sound {α : Type} (m : Memory α) (g : Grid) (k : Int) (v : α)
    (h : load_checked m g k = some v) : v = m g.internal_storage k := by
  unfold load_checked at h
  split at h
  · exact (Option.some.inj h).symm
  · exact absurd h (by simp)

/-- When the checked `apply_boundary_conditions` comes to an end, its result is
that of `apply_boundary_conditions`. -/
theorem apply_boundary_conditions_checked_sound {α : Type} [Field α] (m : Memory α) (g : Grid)
    (r : Memory α) (h : apply_boundary_conditions_checked m g = some r) :
    r = apply_boundary_conditions m g := by
  simp only [apply_boundary_conditions_checked, Option.bind_eq_bind, Option.bind_eq_some] at h
  obtain ⟨m1, h1, m2, h2, m3, h3, h4⟩ := h
  have e1 := cforM_sound (fun i m => m.store g.internal_storage ((i * g.len_x) + (0 - 1)) 0)
    _ (fun i s s2 hs => store_checked_sound s g _ 0 s2 hs) _ _ _ _ h1
  have e2 := cforM_sound
    (fun i m => m.store g.internal_storage ((i * g.len_x) + (g.len_y - 1 - 1)) 0)
    _ (fun i s s2 hs => store_checked_sound s g _ 0 s2 hs) _ _ _ _ h2
  have e3 := cforM_sound (fun j m => m.store g.internal_storage ((0 * g.len_x) + (j - 1)) 0)
    _ (fun i s s2 hs => store_checked_sound s g _ 0 s2 hs) _ _ _ _ h3
  have e4 := cforM_sound
    (fun j m => m.store g.internal_storage ((g.len_x - 1 * g.len_x) + (j - 1)) 0)
    _ (fun i s s2 hs => store_checked_sound s g _ 0 s2 hs) _ _ _ _ h4
  rw [e4, e3, e2, e1]
  rfl

theorem uijnP1_checked_sound {α : Type} [Field α] (m : Memory α) (previous : Grid)
    (h : Stepsize α) (i j : Int) (v : α) (hv : uijnP1_checked m previous h i j = some v) :
    v = uijnP1 m previous h i j := by
  simp only [uijnP1_checked, Option.bind_eq_bind, Option.bind_eq_some, Option.pure_def,
    Option.some.injEq] at hv
  obtain ⟨a, ha, b, hb, c, hc, d, hd, e, he, rfl⟩ := hv
  rw [load_checked_sound _ _ _ _ ha, load_checked_sound _ _ _ _ hb,
    load_checked_sound _ _ _ _ hc, load_checked_sound _ _ _ _ hd,
    load_checked_sound _ _ _ _ he]
  rfl

/-- When the checked `solve_interior` comes to an end, its result is that of
`solve_interior`. -/
theorem solve_interior_checked_sound {α : Type} [Field α] (m : Memory α)
    (current previous : Grid) (h : Stepsize α) (r : Memory α)
    (hr : solve_interior_checked m current previous h = some r) :
    r = solve_interior m current previous h := by
  unfold solve_interior_checked at hr
  unfold solve_interior
  refine cforM_sound _ _ ?_ _ _ _ _ hr
  intro i s s2 hs
  refine cforM_sound _ _ ?_ _ _ _ _ hs
  intro j s s2 hs
  simp only [Option.bind_eq_bind, Option.bind_eq_some] at hs
  obtain ⟨v, hv, hst⟩ := hs
  rw [store_checked_sound _ _ _ _ _ hst, uijnP1_checked_sound _ _ _ _ _ _ hv]

/-- The first store of `apply_boundary_conditions`, `i = 0` in the North loop,
is at offset `-1`: the checked function fails on every grid with `len_x ≥ 1`. -/
theorem apply_boundary_conditions_checked_none {α : Type} [Field α] (m : Memory α) (g : Grid)
    (hx : 1 ≤ g.len_x) : apply_boundary_conditions_checked m g = none := by
  obtain ⟨n, hn⟩ : ∃ n : Nat, (g.len_x - 0).toNat = n + 1 := ⟨(g.len_x - 1).toNat, by omega⟩
  have e : store_checked m g ((0 * g.len_x) + (0 - 1)) (0 : α) = none := by
    simp [store_checked, in_storage]
  simp only [apply_boundary_conditions_checked, cforM, hn, forLoopM, e, Option.bind_eq_bind,
    Option.none_bind]

/-- An iteration of `solve_interior` whose read of `uiM1jn` is outside the
storage fails. -/
theorem uijnP1_checked_none {α : Type} [Field α] (m : Memory α) (previous : Grid)
    (h : Stepsize α) (i j : Int)
    (ho : in_storage previous ((i - 1 * previous.len_x) + (j - 1)) = false) :
    uijnP1_checked m previous h i j = none := by
  have e : load_checked m previous ((i - 1 * previous.len_x) + (j - 1)) = none := by
    unfold load_checked
    rw [ho]
    rfl
  unfold uijnP1_checked
  cases load_checked m previous ((i * previous.len_x) + (j - 1)) with
  | none => rfl
  | some a =>
    cases load_checked m previous ((i + 1 * previous.len_x) + (j - 1)) with
    | none => rfl
    | some b => simp only [Option.bind_eq_bind, Option.some_bind, e, Option.none_bind]

/-- The first iteration of `solve_interior`, `i = j = 1`, reads `previous` at
offset `1 - len_x`: the checked function fails whenever the loops are entered. -/
theorem solve_interior_checked_none {α : Type} [Field α] (m : Memory α)
    (current previous : Grid) (h : Stepsize α) (hx : 4 ≤ current.len_x)
    (hy : 4 ≤ current.len_y) (hp : 2 ≤ previous.len_x) :
    solve_interior_checked m current previous h = none := by
  obtain ⟨n, hn⟩ : ∃ n : Nat, (current.len_x - 2 - 1).toNat = n + 1 :=
    ⟨(current.len_x - 4).toNat, by omega⟩
  obtain ⟨k, hk⟩ : ∃ k : Nat, (current.len_y - 2 - 1).toNat = k + 1 :=
    ⟨(current.len_y - 4).toNat, by omega⟩
  have e := uijnP1_checked_none m previous h 1 1 (by
    simp only [in_storage, Bool.and_eq_false_iff, decide_eq_false_iff_not]
    left
    omega)
  simp only [solve_interior_checked, cforM, hn, hk, forLoopM, e, Option.bind_eq_bind,
    Option.none_bind]

/-- C13 (evaluated at failing inputs): on 4 by 4 grids, whose storage is the
offsets 0 to 15, `apply_boundary_conditions` writes offset `-1` (North loop,
`i = 0`) and `solve_interior` reads offset `-3` of `previous` (`uiM1jn` for
`i = j = 1`); on an 8 by 4 grid, storage 0 to 31, `solve_interior` writes offset
40 of `current` (`i = 5`, `j = 1`).  With checked indexing both functions fail
on the 4 by 4 grids. -/
theorem transition_accesses_out_of_storage :
    ((-1 : Int) ∈ apply_boundary_conditions_writes ⟨0, 4, 4⟩ ∧
      in_storage ⟨0, 4, 4⟩ (-1) = false) ∧
    ((-3 : Int) ∈ solve_interior_reads ⟨0, 4, 4⟩ ⟨1, 4, 4⟩ ∧
      in_storage ⟨1, 4, 4⟩ (-3) = false) ∧
    ((40 : Int) ∈ solve_interior_writes ⟨0, 8, 4⟩ ∧ in_storage ⟨0, 8, 4⟩ 40 = false) ∧
    apply_boundary_conditions_checked (fun _ _ => (0 : ℚ)) ⟨0, 4, 4⟩ = none ∧
    solve_interior_checked (fun _ _ => (0 : ℚ)) ⟨0, 4, 4⟩ ⟨1, 4, 4⟩ ⟨1, 1, 1⟩ = none := by
  refine ⟨⟨by decide, by decide⟩, ⟨by decide, by decide⟩, ⟨by decide, by decide⟩, ?_, ?_⟩
  · exact apply_boundary_conditions_checked_none _ _ (by decide)
  · exact solve_interior_checked_none _ _ _ _ (by decide) (by decide) (by decide)

/-! ## The offsets of the initial conditions -/

/-- On a square grid of side `n ≥ 1` the offsets `generate_initial_conditions`
assigns are those from `-1` to `n*n - 2`. -/
theorem mem_generate_initial_conditions_writes_square (n k : Int) (hn : 1 ≤ n) :
    k ∈ generate_initial_conditions_writes n n ↔ -1 ≤ k ∧ k < n * n - 1 := by
  rw [mem_generate_initial_conditions_writes]
  constructor
  · rintro ⟨i, j, a, b, c, d, e⟩
    have h1 : 0 ≤ i * n := mul_nonneg a (by omega)
    have h2 : i * n ≤ (n - 1) * n := mul_le_mul_of_nonneg_right (by omega) (by omega)
    have h3 : (n - 1) * n = n * n - n := by ring
    omega
  · rintro ⟨h1, h2⟩
    have hpos : 0 < n := by omega
    refine ⟨(k + 1) / n, (k + 1) % n, Int.ediv_nonneg (by omega) (by omega),
      Int.ediv_lt_of_lt_mul hpos (by omega), Int.emod_nonneg _ (by omega),
      Int.emod_lt_of_pos _ hpos, ?_⟩
    have := Int.ediv_add_emod (k + 1) n
    have e : (k + 1) / n * n = n * ((k + 1) / n) := mul_comm _ _
    omega

/-- C14 (evaluated at a failing input): on the square grid of side 2, storage
offsets 0 to 3, `generate_initial_conditions` assigns the offsets `-1, 0, 1, 2`:
offset `-1` is outside the storage, and offset 3 is never assigned, so that the
last storage element keeps what `malloc` returned, and `main` run with
`-x 2 -y 2 -t 1` writes it to the file as the fourth value. -/
theorem generate_initial_conditions_writes_shifted :
    generate_initial_conditions_writes 2 2 = [-1, 0, 1, 2] ∧
    in_storage ⟨0, 2, 2⟩ (-1) = false ∧
    in_storage ⟨0, 2, 2⟩ 3 = true ∧
    (3 : Int) ∉ generate_initial_conditions_writes 2 2 ∧
    ∀ (sinf : ℚ → ℚ) (hp : Heap ℚ),
      (generate_initial_conditions sinf hp 2 2).2.cells hp.next 3 = hp.cells hp.next 3 ∧
      main sinf hp (fun _ => ⟨0, 0, 0⟩) ["prog", "-x", "2", "-y", "2", "-t", "1"]
        = Outcome.returned [sinf 0, sinf (1 / 2), sinf (1 / 2), hp.cells hp.next 3] := by
  refine ⟨by decide, by decide, by decide, by decide, ?_⟩
  intro sinf hp
  refine ⟨generate_initial_conditions_unwritten sinf hp 2 2 3 (by decide), ?_⟩
  simp [main, parse_grid_options, parse_loop, atoi, strtol, strtol_digits, isdigit,
    isspace, int_of_long, size_t_of_int, main_store_argument, solve_problem, int_of_size_t,
    generate_initial_conditions, alloc_grid, cfor, forLoop, store_grid, List.range_succ,
    stepsize_from_grid_options]

/-! ## The driver -/

/-- One pass of the time loop at `tau = n + 1` is the transition of the
specification applied to the heap and to `grids_by_timestep[n]`. -/
theorem time_step_eq_spec_transition {α : Type} [Field α] (len_x len_y : Int)
    (h : Stepsize α) (n : Nat) (s : Heap α × (Int → Grid)) :
    ((time_step len_x len_y h ((n : Int) + 1) s).1,
        (time_step len_x len_y h ((n : Int) + 1) s).2 ((n : Int) + 1))
      = spec_transition len_x len_y h (s.1, s.2 (n : Int)) := by
  have hne : ((n : Int) + 1 - 1) ≠ (n : Int) + 1 := by omega
  have e : (n : Int) + 1 - 1 = (n : Int) := by omega
  simp only [time_step, spec_transition, Function.update_same, Function.update_noteq hne]
  rw [e]

/-- After `n` passes of the time loop, started at `tau = 1`, the heap and the
slot `n` of `grids_by_timestep` are the heap and the grid of timestep `n`. -/
theorem forLoop_time_step_sequence {α : Type} [Field α] (sinf : α → α) (hp : Heap α)
    (junk : Int → Grid) (len_x len_y : Int) (h : Stepsize α) (n : Nat) :
    ((forLoop n 1 (time_step len_x len_y h)
          ((generate_initial_conditions sinf hp len_x len_y).2,
            Function.update junk 0 (generate_initial_conditions sinf hp len_x len_y).1)).1,
      (forLoop n 1 (time_step len_x len_y h)
          ((generate_initial_conditions sinf hp len_x len_y).2,
            Function.update junk 0 (generate_initial_conditions sinf hp len_x len_y).1)).2
        (n : Int))
      = grid_sequence sinf hp len_x len_y h n := by
  have key := forLoop_inv
    (fun (I : Int) (s : Heap α × (Int → Grid)) =>
      ∃ k : Nat, I = (k : Int) + 1 ∧ (s.1, s.2 (k : Int)) = grid_sequence sinf hp len_x len_y h k)
    (time_step len_x len_y h) n 1
    ((generate_initial_conditions sinf hp len_x len_y).2,
      Function.update junk 0 (generate_initial_conditions sinf hp len_x len_y).1)
    ⟨0, by simp, by simp [grid_sequence]⟩
    (by
      rintro I s _ _ ⟨k, hk, hs⟩
      refine ⟨k + 1, by rw [hk]; push_cast; ring, ?_⟩
      rw [hk]
      have := time_step_eq_spec_transition len_x len_y h k s
      push_cast
      rw [this, hs]
      rfl)
  obtain ⟨k, hk, hs⟩ := key
  have e : k = n := by omega
  subst e
  exact hs

/-- C12: for every `len_t ≥ 1` and every grid size, the heap and the grid that
`main` hands to `store_grid` are those of timestep `len_t - 1` of the sequence
that starts with `generate_initial_conditions(len_x, len_y)` and goes from one
timestep to the next by allocating a new grid, applying
`apply_boundary_conditions` to it and running `solve_interior` with the grid
before as `previous`: the transition is applied `len_t - 1` times, and for
`len_t = 1` the stored grid is the initial-conditions grid as generated. -/
theorem main_stores_last_grid {α : Type} [Field α] (sinf : α → α) (hp : Heap α)
    (junk : Int → Grid) (go : GridOptions) (ht : 1 ≤ go.len_t) :
    main_store_argument sinf hp junk go
        = grid_sequence sinf hp (int_of_size_t go.len_x) (int_of_size_t go.len_y)
            (stepsize_from_grid_options go) (go.len_t - 1) ∧
    (go.len_t = 1 →
      main_store_argument sinf hp junk go
        = ((generate_initial_conditions sinf hp (int_of_size_t go.len_x)
              (int_of_size_t go.len_y)).2,
            (generate_initial_conditions sinf hp (int_of_size_t go.len_x)
              (int_of_size_t go.len_y)).1)) := by
  have hmain : main_store_argument sinf hp junk go
      = grid_sequence sinf hp (int_of_size_t go.len_x) (int_of_size_t go.len_y)
          (stepsize_from_grid_options go) (go.len_t - 1) := by
    have e1 : ((go.len_t : Int) - 1).toNat = go.len_t - 1 := by omega
    have e2 : (go.len_t : Int) - 1 = ((go.len_t - 1 : Nat) : Int) := by omega
    unfold main_store_argument solve_problem cfor
    simp only [e1]
    rw [e2]
    exact forLoop_time_step_sequence sinf hp junk _ _ _ (go.len_t - 1)
  refine ⟨hmain, ?_⟩
  intro h1
  rw [hmain, h1]
  rfl

theorem main_stores_last_grid_witness :
    main_store_argument (fun x : ℚ => x) ⟨fun _ _ => 0, 0⟩ (fun _ => ⟨0, 0, 0⟩) ⟨4, 4, 3⟩
      = grid_sequence (fun x : ℚ => x) ⟨fun _ _ => 0, 0⟩ (int_of_size_t 4) (int_of_size_t 4)
          (stepsize_from_grid_options ⟨4, 4, 3⟩) (3 - 1) :=
  (main_stores_last_grid (fun x : ℚ => x) ⟨fun _ _ => 0, 0⟩ (fun _ => ⟨0, 0, 0⟩) ⟨4, 4, 3⟩
    (by decide)).1

/-! ## `stepsize_from_grid_options` -/

/-- C15: for options with positive `len_x`, `len_y`, `len_t` the stepsize `h` of
`stepsize_from_grid_options` has `h.t/h.x² + h.t/h.y² = (len_x² + len_y²)/len_t`
in exact arithmetic, so that the stability bound `≤ 1/2` holds if and only if
`2*(len_x² + len_y²) ≤ len_t`; for the defaults 500, 500, 10 the quantity is
50000. -/
theorem stepsize_stability_quantity {α : Type} [LinearOrderedField α] (go : GridOptions)
    (hx : 0 < go.len_x) (hy : 0 < go.len_y) (ht : 0 < go.len_t) :
    ((stepsize_from_grid_options go : Stepsize α).t
          / (stepsize_from_grid_options go : Stepsize α).x ^ 2
        + (stepsize_from_grid_options go : Stepsize α).t
          / (stepsize_from_grid_options go : Stepsize α).y ^ 2
      = ((go.len_x : α) ^ 2 + (go.len_y : α) ^ 2) / (go.len_t : α)) ∧
    ((stepsize_from_grid_options go : Stepsize α).t
          / (stepsize_from_grid_options go : Stepsize α).x ^ 2
        + (stepsize_from_grid_options go : Stepsize α).t
          / (stepsize_from_grid_options go : Stepsize α).y ^ 2 ≤ 1 / 2
      ↔ 2 * (go.len_x ^ 2 + go.len_y ^ 2) ≤ go.len_t) ∧
    ((stepsize_from_grid_options ⟨500, 500, 10⟩ : Stepsize α).t
          / (stepsize_from_grid_options ⟨500, 500, 10⟩ : Stepsize α).x ^ 2
        + (stepsize_from_grid_options ⟨500, 500, 10⟩ : Stepsize α).t
          / (stepsize_from_grid_options ⟨500, 500, 10⟩ : Stepsize α).y ^ 2
      = 50000) := by
  have hx2 : (0 : α) < (go.len_x : α) := Nat.cast_pos.2 hx
  have hy2 : (0 : α) < (go.len_y : α) := Nat.cast_pos.2 hy
  have ht2 : (0 : α) < (go.len_t : α) := Nat.cast_pos.2 ht
  have e : (stepsize_from_grid_options go : Stepsize α).t
          / (stepsize_from_grid_options go : Stepsize α).x ^ 2
        + (stepsize_from_grid_options go : Stepsize α).t
          / (stepsize_from_grid_options go : Stepsize α).y ^ 2
      = ((go.len_x : α) ^ 2 + (go.len_y : α) ^ 2) / (go.len_t : α) := by
    simp only [stepsize_from_grid_options]
    field_simp
  refine ⟨e, ?_, ?_⟩
  · rw [e, div_le_iff₀ ht2]
    constructor
    · intro h
      have h2 : (2 : α) * ((go.len_x : α) ^ 2 + (go.len_y : α) ^ 2) ≤ (go.len_t : α) := by
        linarith
      exact_mod_cast h2
    · intro h
      have h2 : (2 : α) * ((go.len_x : α) ^ 2 + (go.len_y : α) ^ 2) ≤ (go.len_t : α) := by
        exact_mod_cast h
      linarith
  · simp only [stepsize_from_grid_options]
    norm_num

theorem stepsize_stability_quantity_witness :
    (stepsize_from_grid_options ⟨2, 2, 16⟩ : Stepsize ℚ).t
          / (stepsize_from_grid_options ⟨2, 2, 16⟩ : Stepsize ℚ).x ^ 2
        + (stepsize_from_grid_options ⟨2, 2, 16⟩ : Stepsize ℚ).t
          / (stepsize_from_grid_options ⟨2, 2, 16⟩ : Stepsize ℚ).y ^ 2 ≤ 1 / 2
      ↔ 2 * (2 ^ 2 + 2 ^ 2) ≤ 16 :=
  (stepsize_stability_quantity ⟨2, 2, 16⟩ (by decide) (by decide) (by decide)).2.1

/-! ## `solve_interior` outside the storage of its grids -/

/-- C6 (evaluated at a failing input): `current` is an 8 by 4 grid, storage offsets
0 to 31, filled with 0, `previous` an 8 by 4 grid filled with 1, `h = (1,1,1)`.
For the cell `(5,1)` `solve_interior` stores at offset `5*8 + (1-1) = 40`, past
the end of the storage of `current`: the element there, which is no element of
`current`, is 0 before the call and 1 after it. -/
theorem solve_interior_writes_past_current :
    (40 : Int) ∈ solve_interior_writes ⟨0, 8, 4⟩ ∧
    (5 : Int) * 8 + (1 - 1) = 40 ∧
    in_storage ⟨0, 8, 4⟩ 40 = false ∧
    (fun (p : Nat) (_ : Int) => if p = 1 then (1 : ℚ) else 0) 0 40 = 0 ∧
    solve_interior (fun p _ => if p = 1 then (1 : ℚ) else 0) ⟨0, 8, 4⟩ ⟨1, 8, 4⟩
      ⟨1, 1, 1⟩ 0 40 = 1 := by
  refine ⟨by decide, by decide, by decide, by decide, ?_⟩
  simp [solve_interior, cfor, forLoop, uijnP1]
  norm_num

/-- C7 (evaluated at a failing input): 4 by 4 grids, `h = (1,1,1)`, and two
memories in which `current` and the 16 storage elements of `previous` hold 1;
they differ only at offset `-3` of the block of `previous`, outside its storage,
which holds 1 in one and 101 in the other.  `solve_interior` reads that offset
as `uiM1jn` for `i = j = 1` (`(i-1 * len_x) + (j - 1) = 1 - 4 + 0`), and leaves 1
in the cell `(1,1)` in one run and 101 in the other. -/
theorem solve_interior_reads_beside_previous :
    (∀ k, in_storage ⟨1, 4, 4⟩ k = true →
      (fun (_ : Nat) (_ : Int) => (1 : ℚ)) 1 k
        = (fun (p : Nat) (k : Int) => if p = 1 ∧ k = -3 then (101 : ℚ) else 1) 1 k) ∧
    (∀ k, (fun (_ : Nat) (_ : Int) => (1 : ℚ)) 0 k
        = (fun (p : Nat) (k : Int) => if p = 1 ∧ k = -3 then (101 : ℚ) else 1) 0 k) ∧
    (-3 : Int) ∈ uijnP1_reads ⟨1, 4, 4⟩ 1 1 ∧
    in_storage ⟨1, 4, 4⟩ (-3) = false ∧
    solve_interior (fun _ _ => (1 : ℚ)) ⟨0, 4, 4⟩ ⟨1, 4, 4⟩ ⟨1, 1, 1⟩ 0 (1 * 4 + (1 - 1))
      = 1 ∧
    solve_interior (fun p k => if p = 1 ∧ k = -3 then (101 : ℚ) else 1) ⟨0, 4, 4⟩ ⟨1, 4, 4⟩
      ⟨1, 1, 1⟩ 0 (1 * 4 + (1 - 1)) = 101 := by
  refine ⟨?_, ?_, by decide, by decide, ?_, ?_⟩
  · intro k hk
    have hk2 : k ≠ -3 := by
      intro e
      rw [e] at hk
      exact absurd hk (by decide)
    simp [hk2]
  · intro k
    simp
  · simp [solve_interior, cfor, forLoop, uijnP1]
    norm_num
  · simp [solve_interior, cfor, forLoop, uijnP1]
    norm_num

end OdeToJoy
